import Mathlib

/-!
# Verification of the libgomp host-side target memory manager (target.c)

A shallow embedding of the mapping engine of `src/libgomp/target.c`:
the interval-index comparator and overlap-aware lookup, the map engine
(`gomp_map_vars` with its two passes), the unmap / async copy-back /
update engines, and the user-level `omp_target_is_present` entry point.

Machine integers (`uintptr_t`, `size_t`) are modelled as `Nat`; the one
place where unsigned wrap-around is semantically relevant (the transient
`host_start--` / `host_end++` probes of `gomp_map_lookup` at the edges of
the address space) uses explicit arithmetic modulo `2^64`.

Device/host byte transfers and the plugin calls (`alloc_func`,
`free_func`, `host2dev_func`, `dev2host_func`) are recorded as an event
trace; memory records and target descriptors live in explicit heaps
(`List` indexed by ids) so that the C back-references (`key->tgt`) and
in-place refcount mutations are represented faithfully.
-/

namespace Target

/-- Word size of the modelled platform: `uintptr_t` is 64 bits wide. -/
def WORD : Nat := 2 ^ 64

/-- `sizeof (void *)` on the modelled platform. -/
def sizeofPtr : Nat := 8

/-- `REFCOUNT_INFINITY` is `~(uintptr_t) 0`, i.e. the maximal `uintptr_t`. -/
def REFCOUNT_INFINITY : Nat := WORD - 1

/-- A host address interval, the comparison key of the splay tree
(`host_start`/`host_end` fields of `splay_tree_key_s`). -/
structure Interval where
  host_start : Nat
  host_end : Nat
deriving Repr, DecidableEq

/-- The splay-tree comparison function `splay_compare` of target.c. -/
def splay_compare (x y : Interval) : Int :=
  if x.host_start = x.host_end ∧ y.host_start = y.host_end then 0
  else if x.host_end ≤ y.host_start then -1
  else if x.host_start ≥ y.host_end then 1
  else 0

/-- The low-byte operation selector of a map kind (`kind & typemask`).
The numeric encoding lives in gomp-constants.h, which is not part of this
repository snapshot; the operations are represented symbolically.
`OTHER` stands for any further kind value that target.c does not handle
specially (it reaches the `default:` branches). -/
inductive MapOp where
  | ALLOC | TO | FROM | TOFROM
  | POINTER | TO_PSET | FORCE_PRESENT | DELETE
  | FORCE_DEVICEPTR
  | FIRSTPRIVATE | FIRSTPRIVATE_INT | USE_DEVICE_PTR | ZERO_LEN_ARRAY_SECTION
  | FORCE_ALLOC | FORCE_TO | FORCE_FROM | FORCE_TOFROM
  | ALWAYS_TO | ALWAYS_FROM | ALWAYS_TOFROM
  | STRUCT | RELEASE | DELETE_ZERO_LEN_ARRAY_SECTION
  | OTHER
deriving Repr, DecidableEq

/-- A map kind: operation selector plus the alignment exponent carried in
the high bits (`kind >> rshift`; the alignment used is `1 << (kind >> rshift)`). -/
structure Kind where
  op : MapOp
  alignExp : Nat
deriving Repr, DecidableEq

namespace MapOp

/-- Modelled from the spec: `GOMP_MAP_COPY_FROM_P` — the kinds whose
clauses request a copy-back (FROM / TOFROM and their FORCE/ALWAYS forms);
gomp-constants.h is not under src/. -/
def copyFromP : MapOp → Bool
  | FROM | TOFROM | FORCE_FROM | FORCE_TOFROM | ALWAYS_FROM | ALWAYS_TOFROM => true
  | _ => false

/-- Modelled from the spec: `GOMP_MAP_COPY_TO_P` — the kinds whose
clauses request a host→device copy (TO / TOFROM and their FORCE/ALWAYS
forms); gomp-constants.h is not under src/. -/
def copyToP : MapOp → Bool
  | TO | TOFROM | FORCE_TO | FORCE_TOFROM | ALWAYS_TO | ALWAYS_TOFROM => true
  | _ => false

/-- Modelled from the spec: `GOMP_MAP_ALWAYS_FROM_P`. -/
def alwaysFromP : MapOp → Bool
  | ALWAYS_FROM | ALWAYS_TOFROM => true
  | _ => false

/-- Modelled from the spec: `GOMP_MAP_ALWAYS_TO_P`. -/
def alwaysToP : MapOp → Bool
  | ALWAYS_TO | ALWAYS_TOFROM => true
  | _ => false

/-- Modelled from the spec: `GOMP_MAP_POINTER_P`. -/
def pointerP : MapOp → Bool
  | POINTER => true
  | _ => false

/-- Modelled from the spec: the `GOMP_MAP_FLAG_FORCE` bit is set exactly
on the FORCE_ALLOC / FORCE_TO / FORCE_FROM / FORCE_TOFROM kinds. -/
def forceFlag : MapOp → Bool
  | FORCE_ALLOC | FORCE_TO | FORCE_FROM | FORCE_TOFROM => true
  | _ => false

end MapOp

/-- One mapping record (`splay_tree_key_s`): a host interval materialized
on the device.  `tgt` is the id of the owning target descriptor. -/
structure KeyData where
  host_start : Nat
  host_end : Nat
  tgt_offset : Nat
  tgt : Nat
  refcount : Nat
  async_refcount : Nat
deriving Repr, DecidableEq

/-- The interval of a record, as used by `splay_compare`. -/
def KeyData.ival (k : KeyData) : Interval := ⟨k.host_start, k.host_end⟩

/-- The `offset` field of a `target_var_desc` slot: either a real device
offset or one of the sentinels `~0`, `~1`, `~2` used by the argument-array
pass of `gomp_map_vars`. -/
inductive VarOffset where
  | ofs (n : Nat)
  | sentinel0
  | sentinel1
  | sentinel2
deriving Repr, DecidableEq

/-- Numeric view of a slot offset; slots that carry a key always hold a
real `ofs` value. -/
def VarOffset.toNat : VarOffset → Nat
  | .ofs n => n
  | _ => 0

/-- One per-clause slot (`target_var_desc`) of a target descriptor. -/
structure VarDesc where
  key : Option Nat
  copy_from : Bool
  always_copy_from : Bool
  offset : VarOffset
  length : Nat
deriving Repr, DecidableEq

/-- The slot value standing for the uninitialized malloc'd storage of
`tgt->list` before the engine writes it. -/
def VarDesc.uninit : VarDesc :=
  { key := none, copy_from := false, always_copy_from := false
    offset := .ofs 0, length := 0 }

/-- One target memory descriptor (`target_mem_desc`). -/
structure TgtData where
  tgt_start : Nat
  tgt_end : Nat
  to_free : Option Nat
  refcount : Nat
  list : List VarDesc
  list_count : Nat
deriving Repr, DecidableEq

/-- Visible actions of the engine: plugin calls and heap frees. -/
inductive Event where
  | h2d (dst src len : Nat)
  | h2dval (dst val : Nat)
  | d2h (dst src len : Nat)
  | allocEv (size : Nat)
  | freeFuncEv (addr : Nat)
  | freeArray (tgtId : Nat)
  | freeTgt (tgtId : Nat)
  | removeEv (keyId : Nat)
deriving Repr, DecidableEq

/-- The shared mutable state of one device's mapping engine: the heap of
records, the heap of descriptors, and the interval index (ids of the
records currently inserted, searched in order). -/
structure EngState where
  keys : List KeyData
  tgts : List TgtData
  mem_map : List Nat
  next_dev : Nat
deriving Repr, DecidableEq

/-- Modelled from the spec: `splay_tree_lookup` (splay-tree.h/c are not
under src/) — "lookup(key) returning the overlapping record or none",
i.e. the record whose interval compares equal to the query under
`splay_compare`. -/
def splay_tree_lookup (keys : List KeyData) (mm : List Nat) (q : Interval) : Option Nat :=
  mm.find? fun id =>
    match keys[id]? with
    | some k => splay_compare q k.ival = 0
    | none => false

/-- `x + 1` in `uintptr_t` arithmetic. -/
def uadd1 (x : Nat) : Nat := (x + 1) % WORD

/-- `x - 1` in `uintptr_t` arithmetic. -/
def usub1 (x : Nat) : Nat := (x + (WORD - 1)) % WORD

/-- Result of `gomp_map_lookup`: the record found (if any) together with
the final value of the caller's query key, whose fields the function
mutates in place and restores. -/
structure LookupRes where
  res : Option Nat
  key : Interval
deriving Repr, DecidableEq

/-- `gomp_map_lookup`: overlap-aware lookup.  A non-degenerate query is
passed straight through; a degenerate query is probed extended one byte
right (`key->host_end++` … `key->host_end--`), then extended one byte
left (`key->host_start--` … `key->host_start++`), then as the point
itself. -/
def gomp_map_lookup (keys : List KeyData) (mm : List Nat) (key : Interval) : LookupRes :=
  if key.host_start ≠ key.host_end then
    ⟨splay_tree_lookup keys mm key, key⟩
  else
    let k1 : Interval := ⟨key.host_start, uadd1 key.host_end⟩
    let n := splay_tree_lookup keys mm k1
    let k2 : Interval := ⟨k1.host_start, usub1 k1.host_end⟩
    if n.isSome then ⟨n, k2⟩
    else
      let k3 : Interval := ⟨usub1 k2.host_start, k2.host_end⟩
      let n2 := splay_tree_lookup keys mm k3
      let k4 : Interval := ⟨uadd1 k3.host_start, k3.host_end⟩
      if n2.isSome then ⟨n2, k4⟩
      else ⟨splay_tree_lookup keys mm k4, k4⟩

/-- `a - b` in `uintptr_t`/`size_t` arithmetic (wraps modulo `2^64`). -/
def usub (a b : Nat) : Nat := (a % WORD + (WORD - b % WORD)) % WORD

/-- `(x + a - 1) & ~(a - 1)` for a power-of-two `a`: align `x` up to a
multiple of `a`, with `size_t` wrap-around of the intermediate sum. -/
def alignUp (x a : Nat) : Nat := (x + a - 1) % WORD / a * a

/-- Default record value standing for reads through invalid ids (in C
these would be wild dereferences; no theorem relies on them). -/
def defaultKey : KeyData :=
  { host_start := 0, host_end := 0, tgt_offset := 0, tgt := 0
    refcount := 0, async_refcount := 0 }

/-- Default descriptor value for reads through invalid ids. -/
def defaultTgt : TgtData :=
  { tgt_start := 0, tgt_end := 0, to_free := none, refcount := 0
    list := [], list_count := 0 }

/-- Read the record with id `id` (`*k` in C). -/
def EngState.key (st : EngState) (id : Nat) : KeyData := st.keys.getD id defaultKey

/-- Read the descriptor with id `id` (`*tgt` in C). -/
def EngState.tgt (st : EngState) (id : Nat) : TgtData := st.tgts.getD id defaultTgt

/-- Overwrite the record with id `id` (in-place mutation through `k->`). -/
def EngState.setKey (st : EngState) (id : Nat) (k : KeyData) : EngState :=
  { st with keys := st.keys.set id k }

/-- Overwrite the descriptor with id `id` (in-place mutation through `tgt->`). -/
def EngState.setTgt (st : EngState) (id : Nat) (t : TgtData) : EngState :=
  { st with tgts := st.tgts.set id t }

/-- The pragma kind driving `gomp_map_vars` (`enum gomp_map_vars_kind`). -/
inductive Pragma where
  | TARGET | DATA | ENTER_DATA
deriving Repr, DecidableEq

/-- `gomp_map_vars_existing`: handle a map clause `(newn, op)` whose
lookup found the existing record `oldnId`.  Returns the updated state,
the filled `target_var_desc` slot, and the copies issued; `.error`
models `gomp_fatal`. -/
def gomp_map_vars_existing (st : EngState) (oldnId : Nat) (newn : Interval) (op : MapOp) :
    Except Unit (EngState × VarDesc × List Event) :=
  let oldn := st.key oldnId
  let slot : VarDesc :=
    { key := some oldnId
      copy_from := op.copyFromP
      always_copy_from := op.alwaysFromP
      offset := .ofs (usub newn.host_start oldn.host_start)
      length := usub newn.host_end newn.host_start }
  if op.forceFlag ∨ oldn.host_start > newn.host_start ∨ oldn.host_end < newn.host_end then
    .error ()
  else
    let ev : List Event :=
      if op.alwaysToP then
        [.h2d ((st.tgt oldn.tgt).tgt_start + oldn.tgt_offset
                 + (newn.host_start - oldn.host_start))
              newn.host_start (newn.host_end - newn.host_start)]
      else []
    let st' :=
      if oldn.refcount ≠ REFCOUNT_INFINITY then
        st.setKey oldnId { oldn with refcount := oldn.refcount + 1 }
      else st
    .ok (st', slot, ev)

/-- `gomp_map_pointer`: translate the host pointer value `host_ptr`
(read by the caller from host memory) and write the device pointer at
`tgt_start + target_offset`.  `hostMem a` models the pointer-sized read
`*(void **) a`. -/
def gomp_map_pointer (st : EngState) (tgtId : Nat) (host_ptr target_offset bias : Nat) :
    Except Unit (List Event) :=
  let tgtStart := (st.tgt tgtId).tgt_start
  if host_ptr = 0 then
    .ok [.h2dval (tgtStart + target_offset) 0]
  else
    let p := (host_ptr + bias) % WORD
    match (gomp_map_lookup st.keys st.mem_map ⟨p, p⟩).res with
    | none => .error ()
    | some nId =>
        let n := st.key nId
        let val := usub ((st.tgt n.tgt).tgt_start + n.tgt_offset + usub p n.host_start) bias
        .ok [.h2dval (tgtStart + target_offset) val]

/-- `gomp_map_fields_existing`: handle the struct sibling clause `i`
whose enclosing STRUCT interval resolved to record `nId`; the sibling
must resolve to a record of the same owner at the matching offset
(possibly through the one-byte-shrunk or one-byte-grown probes used for
zero-sized siblings), else fatal. -/
def gomp_map_fields_existing (st : EngState) (nId : Nat) (first i : Nat)
    (hostaddrs : List (Option Nat)) (sizes : List Nat) (kinds : List Kind) :
    Except Unit (EngState × VarDesc × List Event) :=
  let n := st.key nId
  let ha : Nat → Nat := fun j => ((hostaddrs.getD j none).getD 0)
  let sz : Nat → Nat := fun j => sizes.getD j 0
  let op := (kinds.getD i ⟨.OTHER, 0⟩).op
  let cur : Interval := ⟨ha i, ha i + sz i⟩
  let ok2 : Nat → Bool := fun id =>
    let n2 := st.key id
    n2.tgt = n.tgt ∧ usub n2.host_start n.host_start = usub n2.tgt_offset n.tgt_offset
  match splay_tree_lookup st.keys st.mem_map cur with
  | some n2 =>
      if ok2 n2 then gomp_map_vars_existing st n2 cur op
      else fieldsRest st nId first i cur op hostaddrs sizes
  | none => fieldsRest st nId first i cur op hostaddrs sizes
where
  /-- The zero-size fall-back probes and the final fatal branch. -/
  fieldsRest (st : EngState) (nId : Nat) (first i : Nat) (cur : Interval) (op : MapOp)
      (hostaddrs : List (Option Nat)) (sizes : List Nat) :
      Except Unit (EngState × VarDesc × List Event) :=
    let n := st.key nId
    let ha : Nat → Nat := fun j => ((hostaddrs.getD j none).getD 0)
    let ok2 : Nat → Bool := fun id =>
      let n2 := st.key id
      n2.tgt = n.tgt ∧ usub n2.host_start n.host_start = usub n2.tgt_offset n.tgt_offset
    if sizes.getD i 0 = 0 then
      let tryLeft : Option Nat :=
        if cur.host_start > ha (first - 1) then
          match splay_tree_lookup st.keys st.mem_map ⟨usub1 cur.host_start, cur.host_end⟩ with
          | some n2 => if ok2 n2 then some n2 else none
          | none => none
        else none
      match tryLeft with
      | some n2 => gomp_map_vars_existing st n2 cur op
      | none =>
          match splay_tree_lookup st.keys st.mem_map ⟨cur.host_start, uadd1 cur.host_end⟩ with
          | some n2 =>
              if ok2 n2 then gomp_map_vars_existing st n2 cur op
              else .error ()
          | none => .error ()
    else .error ()

/-- `(uintptr_t) hostaddrs[j]` — a NULL or out-of-range entry reads as 0. -/
def haN (hostaddrs : List (Option Nat)) (j : Nat) : Nat := (hostaddrs.getD j none).getD 0

/-- `sizes[j]`. -/
def szN (sizes : List Nat) (j : Nat) : Nat := sizes.getD j 0

/-- `get_kind (short_mapkind, kinds, j)` split into operation and
alignment exponent. -/
def kindN (kinds : List Kind) (j : Nat) : Kind := kinds.getD j ⟨.OTHER, 0⟩

/-- The pass-1 STRUCT not-found branch: null the keys of the sibling
slots `first .. last` (`for (i = first; i <= last; i++) tgt->list[i].key = NULL`). -/
def nullFields (list : List VarDesc) (first : Nat) (count : Nat) : List VarDesc :=
  match count with
  | 0 => list
  | c + 1 =>
      nullFields (list.set first { (list.getD first VarDesc.uninit) with key := none })
        (first + 1) c

/-- The pass-1/pass-2 STRUCT found branch: run `gomp_map_fields_existing`
on every sibling clause `first .. last`, threading state, slots and trace. -/
def structFields (hostaddrs : List (Option Nat)) (sizes : List Nat) (kinds : List Kind)
    (nId first : Nat) (count j : Nat) (st : EngState) (list : List VarDesc)
    (trace : List Event) : Except Unit (EngState × List VarDesc × List Event) :=
  match count with
  | 0 => .ok (st, list, trace)
  | c + 1 =>
      match gomp_map_fields_existing st nId first j hostaddrs sizes kinds with
      | .error e => .error e
      | .ok (st', slot, ev) =>
          structFields hostaddrs sizes kinds nId first c (j + 1) st' (list.set j slot)
            (trace ++ ev)

/-- The pass-1 TO_PSET forward scan: null the keys of the following
contiguous POINTER-kind clauses whose target lies inside the PSET range;
returns the updated slots and the number of clauses consumed (each one
advanced `i` in the C loop). -/
def psetScan1 (hostaddrs : List (Option Nat)) (kinds : List Kind) (mapnum : Nat)
    (cur : Interval) (fuel j : Nat) (list : List VarDesc) : List VarDesc × Nat :=
  match fuel with
  | 0 => (list, 0)
  | f + 1 =>
      if j < mapnum then
        if ¬ (kindN kinds j).op.pointerP then (list, 0)
        else if haN hostaddrs j < cur.host_start ∨ haN hostaddrs j + sizeofPtr > cur.host_end then
          (list, 0)
        else
          let list' := list.set j { (list.getD j VarDesc.uninit) with key := none }
          let r := psetScan1 hostaddrs kinds mapnum cur f (j + 1) list'
          (r.1, r.2 + 1)
      else (list, 0)

/-- The accumulator of pass 1 of `gomp_map_vars`: the state (records may
get refcount bumps through `gomp_map_vars_existing`), the slots written
so far, the (mutable) `hostaddrs` array, the growing size/alignment
accumulators, the not-found counter and the firstprivate flag. -/
structure P1 where
  st : EngState
  list : List VarDesc
  hostaddrs : List (Option Nat)
  tgt_align : Nat
  tgt_size : Nat
  not_found_cnt : Nat
  has_firstprivate : Bool
  trace : List Event

/-- Pass 1 of `gomp_map_vars` (the sizing pass): classify each clause,
translate USE_DEVICE_PTR in place, bump existing records, and accumulate
`tgt_size` / `tgt_align` / `not_found_cnt` for the clauses that need
fresh device space. -/
def pass1 (mapnum : Nat) (sizes : List Nat) (kinds : List Kind) (fuel i : Nat) (acc : P1) :
    Except Unit P1 :=
  match fuel with
  | 0 => .ok acc
  | f + 1 =>
  if i < mapnum then
    let kind := kindN kinds i
    let op := kind.op
    if acc.hostaddrs.getD i none = none ∨ op = .FIRSTPRIVATE_INT then
      pass1 mapnum sizes kinds f (i + 1)
        { acc with list := acc.list.set i { VarDesc.uninit with key := none, offset := .sentinel0 } }
    else if op = .USE_DEVICE_PTR then
      let p := haN acc.hostaddrs i
      match (gomp_map_lookup acc.st.keys acc.st.mem_map ⟨p, p⟩).res with
      | none => .error ()
      | some nId =>
          let n := acc.st.key nId
          let newp := (acc.st.tgt n.tgt).tgt_start + n.tgt_offset + usub p n.host_start
          pass1 mapnum sizes kinds f (i + 1)
            { acc with
              hostaddrs := acc.hostaddrs.set i (some newp),
              list := acc.list.set i { VarDesc.uninit with key := none, offset := .sentinel0 } }
    else if op = .STRUCT then
      let first := i + 1
      let last := i + szN sizes i
      let cur : Interval := ⟨haN acc.hostaddrs i, haN acc.hostaddrs last + szN sizes last⟩
      let list' := acc.list.set i { VarDesc.uninit with key := none, offset := .sentinel2 }
      match splay_tree_lookup acc.st.keys acc.st.mem_map cur with
      | none =>
          let align := 2 ^ kind.alignExp
          let ts1 := usub acc.tgt_size (usub (haN acc.hostaddrs first) (haN acc.hostaddrs i))
          let ts3 := alignUp ts1 align + usub cur.host_end (haN acc.hostaddrs i)
          pass1 mapnum sizes kinds f (i + szN sizes i + 1)
            { acc with
              list := nullFields list' first (szN sizes i),
              tgt_align := max acc.tgt_align align,
              tgt_size := ts3,
              not_found_cnt := acc.not_found_cnt + (last - i) }
      | some nId =>
          match structFields acc.hostaddrs sizes kinds nId first (szN sizes i) first acc.st
              list' acc.trace with
          | .error e => .error e
          | .ok (st', l', tr') =>
              pass1 mapnum sizes kinds f (i + szN sizes i + 1)
                { acc with st := st', list := l', trace := tr' }
    else
      let hs := haN acc.hostaddrs i
      let he := if op.pointerP then hs + sizeofPtr else hs + szN sizes i
      let cur : Interval := ⟨hs, he⟩
      if op = .FIRSTPRIVATE then
        let align := 2 ^ kind.alignExp
        pass1 mapnum sizes kinds f (i + 1)
          { acc with
            list := acc.list.set i { VarDesc.uninit with key := none },
            tgt_align := max acc.tgt_align align,
            tgt_size := alignUp acc.tgt_size align + (he - hs),
            has_firstprivate := true }
      else
        let found : Option Nat :=
          if op = .ZERO_LEN_ARRAY_SECTION then
            (gomp_map_lookup acc.st.keys acc.st.mem_map cur).res
          else splay_tree_lookup acc.st.keys acc.st.mem_map cur
        match found with
        | some nId =>
            match gomp_map_vars_existing acc.st nId cur op with
            | .error e => .error e
            | .ok (st', slot, ev) =>
                pass1 mapnum sizes kinds f (i + 1)
                  { acc with
                    st := st', list := acc.list.set i slot, trace := acc.trace ++ ev }
        | none =>
            if op = .ZERO_LEN_ARRAY_SECTION then
              pass1 mapnum sizes kinds f (i + 1)
                { acc with
                  list := acc.list.set i { VarDesc.uninit with key := none, offset := .sentinel1 } }
            else
              let align := 2 ^ kind.alignExp
              let list' := acc.list.set i { VarDesc.uninit with key := none }
              if op = .TO_PSET then
                let r := psetScan1 acc.hostaddrs kinds mapnum cur mapnum (i + 1) list'
                let l2 := r.1
                let c := r.2
                pass1 mapnum sizes kinds f (i + c + 1)
                  { acc with
                    list := l2,
                    tgt_align := max acc.tgt_align align,
                    tgt_size := alignUp acc.tgt_size align + (he - hs),
                    not_found_cnt := acc.not_found_cnt + 1 }
              else
                pass1 mapnum sizes kinds f (i + 1)
                  { acc with
                    list := list',
                    tgt_align := max acc.tgt_align align,
                    tgt_size := alignUp acc.tgt_size align + (he - hs),
                    not_found_cnt := acc.not_found_cnt + 1 }
  else .ok acc

/-- The pass-2 TO_PSET forward scan: attach the following contiguous
in-range POINTER clauses to the freshly created PSET record `kId`,
bumping its refcount (unless INFINITY) and translating each pointer via
`gomp_map_pointer`; returns the number of clauses consumed. -/
def psetScan2 (hostMem : Nat → Nat) (hostaddrs : List (Option Nat)) (sizes : List Nat)
    (kinds : List Kind) (mapnum tgtId kId : Nat) (fuel j : Nat) (st : EngState)
    (list : List VarDesc) (trace : List Event) :
    Except Unit (EngState × List VarDesc × List Event × Nat) :=
  match fuel with
  | 0 => .ok (st, list, trace, 0)
  | f + 1 =>
  if j < mapnum then
    let k := st.key kId
    if ¬ (kindN kinds j).op.pointerP then .ok (st, list, trace, 0)
    else if haN hostaddrs j < k.host_start ∨ haN hostaddrs j + sizeofPtr > k.host_end then
      .ok (st, list, trace, 0)
    else
      let list' := list.set j
        { (list.getD j VarDesc.uninit) with
          key := some kId, copy_from := false, always_copy_from := false }
      let st' :=
        if k.refcount ≠ REFCOUNT_INFINITY then
          st.setKey kId { k with refcount := k.refcount + 1 }
        else st
      match gomp_map_pointer st' tgtId (hostMem (haN hostaddrs j))
          (k.tgt_offset + usub (haN hostaddrs j) k.host_start) (szN sizes j) with
      | .error e => .error e
      | .ok ev =>
          match psetScan2 hostMem hostaddrs sizes kinds mapnum tgtId kId f (j + 1) st' list'
              (trace ++ ev) with
          | .error e => .error e
          | .ok (st2, l2, tr2, c) => .ok (st2, l2, tr2, c + 1)
  else .ok (st, list, trace, 0)

/-- The accumulator of pass 2 of `gomp_map_vars`: the state (new records
are created and inserted), the slots, the restarted `tgt_size`
accumulator and the `field_tgt_*` triple of the STRUCT protocol. -/
structure P2 where
  st : EngState
  list : List VarDesc
  tgt_size : Nat
  field_tgt_base : Nat
  field_tgt_offset : Nat
  field_tgt_clear : Option Nat
  trace : List Event

/-- The tail of a pass-2 iteration for an ordinary clause: re-run the
lookup; on a hit attach to the existing record, otherwise allocate a
fresh record from the descriptor's array, insert it, and perform the
kind-specific transfer.  Returns the updated accumulator and the index
of the next clause to process. -/
def pass2create (hostMem : Nat → Nat) (mapnum : Nat) (sizes : List Nat) (kinds : List Kind)
    (tgtId : Nat) (hostaddrs : List (Option Nat)) (i : Nat) (acc : P2) :
    Except Unit (P2 × Nat) :=
  let kind := kindN kinds i
  let op := kind.op
  let tgtStart := (acc.st.tgt tgtId).tgt_start
  let khs := haN hostaddrs i
  let khe := if op.pointerP then khs + sizeofPtr else khs + szN sizes i
  match splay_tree_lookup acc.st.keys acc.st.mem_map ⟨khs, khe⟩ with
  | some nId =>
      match gomp_map_vars_existing acc.st nId ⟨khs, khe⟩ op with
      | .error e => .error e
      | .ok (st', s', ev) =>
          .ok ({ acc with
            st := st', list := acc.list.set i s', trace := acc.trace ++ ev }, i + 1)
  | none =>
      let align := 2 ^ kind.alignExp
      let newId := acc.st.keys.length
      let (tofs, fclear, ts) :=
        match acc.field_tgt_clear with
        | some c =>
            ((usub khs acc.field_tgt_base + acc.field_tgt_offset) % WORD,
              if i = c then none else some c, acc.tgt_size)
        | none =>
            let t := alignUp acc.tgt_size align
            (t, (none : Option Nat), t + (khe - khs))
      let newKey : KeyData :=
        { host_start := khs, host_end := khe, tgt_offset := tofs,
          tgt := tgtId, refcount := 1, async_refcount := 0 }
      let slot' : VarDesc :=
        { key := some newId, copy_from := op.copyFromP,
          always_copy_from := op.alwaysFromP, offset := .ofs 0,
          length := khe - khs }
      let tgtD := acc.st.tgt tgtId
      let st1 : EngState :=
        { (acc.st.setTgt tgtId { tgtD with refcount := tgtD.refcount + 1 }) with
          keys := acc.st.keys ++ [newKey] }
      let st2 : EngState := { st1 with mem_map := newId :: st1.mem_map }
      let list1 := acc.list.set i slot'
      let acc1 : P2 :=
        { acc with st := st2, list := list1, tgt_size := ts, field_tgt_clear := fclear }
      match op with
      | .ALLOC | .FROM | .FORCE_ALLOC | .FORCE_FROM | .ALWAYS_FROM =>
          .ok (acc1, i + 1)
      | .TO | .TOFROM | .FORCE_TO | .FORCE_TOFROM | .ALWAYS_TO | .ALWAYS_TOFROM =>
          .ok ({ acc1 with trace := acc1.trace ++ [.h2d (tgtStart + tofs) khs (khe - khs)] },
            i + 1)
      | .POINTER =>
          match gomp_map_pointer st2 tgtId (hostMem khs) tofs (szN sizes i) with
          | .error e => .error e
          | .ok ev => .ok ({ acc1 with trace := acc1.trace ++ ev }, i + 1)
      | .TO_PSET =>
          let tr1 := acc1.trace ++ [.h2d (tgtStart + tofs) khs (khe - khs)]
          match psetScan2 hostMem hostaddrs sizes kinds mapnum tgtId newId mapnum
              (i + 1) st2 list1 tr1 with
          | .error e => .error e
          | .ok (st3, l3, tr3, c) =>
              .ok ({ acc1 with st := st3, list := l3, trace := tr3 }, i + c + 1)
      | .FORCE_PRESENT => .error ()
      | .FORCE_DEVICEPTR =>
          -- the C code asserts host_end - host_start == sizeof (void *)
          if khe - khs ≠ sizeofPtr then .error ()
          else
            .ok ({ acc1 with
              trace := acc1.trace ++ [.h2d (tgtStart + tofs) khs sizeofPtr] }, i + 1)
      | _ => .error ()

/-- Pass 2 of `gomp_map_vars` (the materializing pass): for every slot
still without a key, either copy firstprivate data, re-run the STRUCT
protocol, or hand the clause to `pass2create`. -/
def pass2 (hostMem : Nat → Nat) (mapnum : Nat) (sizes : List Nat) (kinds : List Kind)
    (tgtId : Nat) (hostaddrs : List (Option Nat)) (fuel i : Nat) (acc : P2) : Except Unit P2 :=
  match fuel with
  | 0 => .ok acc
  | f + 1 =>
  if i < mapnum then
    let slot := acc.list.getD i VarDesc.uninit
    if slot.key ≠ none then pass2 hostMem mapnum sizes kinds tgtId hostaddrs f (i + 1) acc
    else
      let kind := kindN kinds i
      let op := kind.op
      if hostaddrs.getD i none = none then
        pass2 hostMem mapnum sizes kinds tgtId hostaddrs f (i + 1) acc
      else
        let tgtStart := (acc.st.tgt tgtId).tgt_start
        if op = .FIRSTPRIVATE then
          let align := 2 ^ kind.alignExp
          let ts := alignUp acc.tgt_size align
          let len := szN sizes i
          pass2 hostMem mapnum sizes kinds tgtId hostaddrs f (i + 1)
            { acc with
              list := acc.list.set i { slot with offset := .ofs ts },
              tgt_size := ts + len,
              trace := acc.trace ++ [.h2d (tgtStart + ts) (haN hostaddrs i) len] }
        else if op = .FIRSTPRIVATE_INT ∨ op = .USE_DEVICE_PTR ∨ op = .ZERO_LEN_ARRAY_SECTION then
          pass2 hostMem mapnum sizes kinds tgtId hostaddrs f (i + 1) acc
        else if op = .STRUCT then
          let first := i + 1
          let last := i + szN sizes i
          let cur : Interval := ⟨haN hostaddrs i, haN hostaddrs last + szN sizes last⟩
          if (acc.list.getD first VarDesc.uninit).key ≠ none then
            pass2 hostMem mapnum sizes kinds tgtId hostaddrs f (i + 1) acc
          else
            match splay_tree_lookup acc.st.keys acc.st.mem_map cur with
            | none =>
                let align := 2 ^ kind.alignExp
                let d := usub (haN hostaddrs first) (haN hostaddrs i)
                let ts1 := alignUp (usub acc.tgt_size d) align + d
                pass2 hostMem mapnum sizes kinds tgtId hostaddrs f (i + 1)
                  { acc with
                    tgt_size := ts1 + usub cur.host_end (haN hostaddrs first),
                    field_tgt_base := haN hostaddrs first,
                    field_tgt_offset := ts1,
                    field_tgt_clear := some last }
            | some nId =>
                match structFields hostaddrs sizes kinds nId first (szN sizes i) first acc.st
                    acc.list acc.trace with
                | .error e => .error e
                | .ok (st', l', tr') =>
                    pass2 hostMem mapnum sizes kinds tgtId hostaddrs f (i + szN sizes i + 1)
                      { acc with st := st', list := l', trace := tr' }
        else
          match pass2create hostMem mapnum sizes kinds tgtId hostaddrs i acc with
          | .error e => .error e
          | .ok (acc1, i1) => pass2 hostMem mapnum sizes kinds tgtId hostaddrs f i1 acc1
  else .ok acc

/-- The TARGET argument-array pass: write `mapnum` device pointers into
the first `mapnum * sizeof (void *)` bytes of the device block, decoding
the slot-offset sentinels. -/
def argArray (st : EngState) (list : List VarDesc) (tgtStart : Nat)
    (hostaddrs : List (Option Nat)) (mapnum : Nat) (fuel i : Nat) : List Event :=
  match fuel with
  | 0 => []
  | f + 1 =>
  if i < mapnum then
    let slot := list.getD i VarDesc.uninit
    let val :=
      match slot.key with
      | none =>
          match slot.offset with
          | .sentinel0 => haN hostaddrs i
          | .sentinel1 => 0
          | .sentinel2 =>
              let s1 := list.getD (i + 1) VarDesc.uninit
              let k1 := st.key (s1.key.getD 0)
              ((st.tgt k1.tgt).tgt_start + k1.tgt_offset + s1.offset.toNat
                + usub (haN hostaddrs i) (haN hostaddrs (i + 1))) % WORD
          | .ofs o => tgtStart + o
      | some kId =>
          let k := st.key kId
          (st.tgt k.tgt).tgt_start + k.tgt_offset + slot.offset.toNat
    .h2dval (tgtStart + i * sizeofPtr) val :: argArray st list tgtStart hostaddrs mapnum f (i + 1)
  else []

/-- The result of `gomp_map_vars`: the final state, the returned
descriptor (none when the ENTER_DATA fast-return freed it), the event
trace, and the final `hostaddrs` array (USE_DEVICE_PTR translates
entries in place). -/
structure MapVarsRes where
  st : EngState
  tgtId : Option Nat
  trace : List Event
  hostaddrs : List (Option Nat)
deriving Repr, DecidableEq

/-- `gomp_map_vars`: translate a batch of map clauses into a target
memory descriptor — create the descriptor, size the batch (pass 1),
decide on device allocation, materialize records and transfers (pass 2),
write the TARGET argument array, and apply the ENTER_DATA fast-return. -/
def gomp_map_vars (hostMem : Nat → Nat) (st0 : EngState) (mapnum : Nat)
    (hostaddrs : List (Option Nat)) (devaddrs : Option (List Nat))
    (sizes : List Nat) (kinds : List Kind) (pragma : Pragma) :
    Except Unit MapVarsRes :=
  let tgtId := st0.tgts.length
  let tgt0 : TgtData :=
    { tgt_start := 0, tgt_end := 0, to_free := none,
      refcount := if pragma = .ENTER_DATA then 0 else 1,
      list := List.replicate mapnum VarDesc.uninit, list_count := mapnum }
  let st1 : EngState := { st0 with tgts := st0.tgts ++ [tgt0] }
  if mapnum = 0 then
    .ok ⟨st1, some tgtId, [], hostaddrs⟩
  else
    let tgt_align0 := if pragma = .TARGET then 4 * sizeofPtr else sizeofPtr
    let tgt_size0 := if pragma = .TARGET then mapnum * sizeofPtr else 0
    match pass1 mapnum sizes kinds mapnum 0
        ⟨st1, tgt0.list, hostaddrs, tgt_align0, tgt_size0, 0, false, []⟩ with
    | .error e => .error e
    | .ok acc =>
        let allocStep : Except Unit (EngState × List Event) :=
          match devaddrs with
          | some ds =>
              if mapnum ≠ 1 then .error ()
              else
                let d0 := ds.getD 0 0
                .ok (acc.st.setTgt tgtId
                  { (acc.st.tgt tgtId) with
                    to_free := some d0, tgt_start := d0, tgt_end := d0 + szN sizes 0 }, [])
          | none =>
              if acc.not_found_cnt ≠ 0 ∨ pragma = .TARGET then
                let size := acc.tgt_size + acc.tgt_align - 1
                let addr := acc.st.next_dev
                let start := alignUp addr acc.tgt_align
                .ok ({ (acc.st.setTgt tgtId
                    { (acc.st.tgt tgtId) with
                      to_free := some addr, tgt_start := start,
                      tgt_end := start + acc.tgt_size }) with
                    next_dev := addr + size }, [.allocEv size])
              else
                .ok (acc.st.setTgt tgtId
                  { (acc.st.tgt tgtId) with to_free := none, tgt_start := 0, tgt_end := 0 }, [])
        match allocStep with
        | .error e => .error e
        | .ok (stA, evA) =>
            let tgt_size1 := if pragma = .TARGET then mapnum * sizeofPtr else 0
            let p2res : Except Unit P2 :=
              if acc.not_found_cnt ≠ 0 ∨ acc.has_firstprivate then
                pass2 hostMem mapnum sizes kinds tgtId acc.hostaddrs mapnum 0
                  ⟨stA, acc.list, tgt_size1, 0, 0, none, []⟩
              else .ok ⟨stA, acc.list, tgt_size1, 0, 0, none, []⟩
            match p2res with
            | .error e => .error e
            | .ok p2 =>
                let stB := p2.st.setTgt tgtId { (p2.st.tgt tgtId) with list := p2.list }
                let evT :=
                  if pragma = .TARGET then
                    argArray stB p2.list ((stB.tgt tgtId).tgt_start) acc.hostaddrs mapnum mapnum 0
                  else []
                let trace := acc.trace ++ evA ++ p2.trace ++ evT
                if pragma = .ENTER_DATA ∧ (stB.tgt tgtId).refcount = 0 then
                  .ok ⟨stB, none, trace ++ [.freeTgt tgtId], acc.hostaddrs⟩
                else
                  .ok ⟨stB, some tgtId, trace, acc.hostaddrs⟩

/-- `gomp_unmap_tgt`: free the descriptor's device block (only when it
owns one, i.e. `tgt->tgt_end` is non-zero), its record array and the
descriptor itself. -/
def gomp_unmap_tgt (st : EngState) (tgtId : Nat) : List Event :=
  let t := st.tgt tgtId
  (if t.tgt_end ≠ 0 then [Event.freeFuncEv (t.to_free.getD 0)] else [])
    ++ [.freeArray tgtId, .freeTgt tgtId]

/-- The walk of `gomp_copy_from_async` over the descriptor's slots:
records still multiply referenced hand one count over to
`async_refcount`; otherwise the copy-back (if requested by the slot) is
issued immediately. -/
def copyFromAsyncLoop (st : EngState) (trace : List Event) :
    List VarDesc → EngState × List Event
  | [] => (st, trace)
  | slot :: rest =>
      match slot.key with
      | none => copyFromAsyncLoop st trace rest
      | some kId =>
          let k := st.key kId
          if k.refcount > 1 then
            copyFromAsyncLoop
              (st.setKey kId
                { k with refcount := k.refcount - 1, async_refcount := k.async_refcount + 1 })
              trace rest
          else
            let ev :=
              if slot.copy_from then
                [Event.d2h k.host_start ((st.tgt k.tgt).tgt_start + k.tgt_offset)
                  (k.host_end - k.host_start)]
              else []
            copyFromAsyncLoop st (trace ++ ev) rest

/-- `gomp_copy_from_async`: queue asynchronous device→host copies for the
descriptor's live regions and hand refcounts over to async refcounts;
performs no key removal and no deallocation. -/
def gomp_copy_from_async (st : EngState) (tgtId : Nat) : EngState × List Event :=
  let t := st.tgt tgtId
  copyFromAsyncLoop st [] (t.list.take t.list_count)

/-- The body of the per-slot walk of `gomp_unmap_vars` for one slot:
decrement (or hand back from `async_refcount`), issue the requested
copy-back, and remove/release the record if its refcount reached zero. -/
def unmapSlotStep (st : EngState) (do_copyfrom : Bool) (slot : VarDesc) :
    EngState × List Event :=
  match slot.key with
  | none => (st, [])
  | some kId =>
    let k := st.key kId
    let step : EngState × Bool :=
      if k.refcount > 1 ∧ k.refcount ≠ REFCOUNT_INFINITY then
        (st.setKey kId { k with refcount := k.refcount - 1 }, false)
      else if k.refcount = 1 then
        if k.async_refcount > 0 then
          (st.setKey kId { k with async_refcount := k.async_refcount - 1 }, false)
        else
          (st.setKey kId { k with refcount := 0 }, true)
      else (st, false)
    let st1 := step.1
    let do_unmap := step.2
    let k1 := st1.key kId
    let ev :=
      if (do_unmap ∧ do_copyfrom ∧ slot.copy_from) ∨ slot.always_copy_from then
        [Event.d2h (k1.host_start + slot.offset.toNat)
          ((st1.tgt k1.tgt).tgt_start + k1.tgt_offset + slot.offset.toNat) slot.length]
      else []
    let unm : EngState × List Event :=
      if do_unmap then
        let stR : EngState := { st1 with mem_map := st1.mem_map.erase kId }
        let ow := stR.tgt k1.tgt
        if ow.refcount > 1 then
          ({ stR with tgts := stR.tgts.set k1.tgt { ow with refcount := ow.refcount - 1 } },
            [Event.removeEv kId])
        else
          (stR, Event.removeEv kId :: gomp_unmap_tgt stR k1.tgt)
      else (st1, [])
    (unm.1, ev ++ unm.2)

/-- The per-slot walk of `gomp_unmap_vars` over the descriptor's slots,
threading state and trace through `unmapSlotStep`. -/
def unmapLoop (st : EngState) (do_copyfrom : Bool) (trace : List Event) :
    List VarDesc → EngState × List Event
  | [] => (st, trace)
  | slot :: rest =>
      let r := unmapSlotStep st do_copyfrom slot
      unmapLoop r.1 do_copyfrom (trace ++ r.2) rest

/-- `gomp_unmap_vars`: unmap the variables described by the descriptor
`tgtId`; when `do_copyfrom` is set the relevant variables are copied back
from device to host (otherwise `gomp_copy_from_async` is assumed to have
done it). -/
def gomp_unmap_vars (st : EngState) (tgtId : Nat) (do_copyfrom : Bool) :
    EngState × List Event :=
  let t := st.tgt tgtId
  if t.list_count = 0 then (st, [.freeTgt tgtId])
  else
    let r := unmapLoop st do_copyfrom [] (t.list.take t.list_count)
    let st1 := r.1
    let t1 := st1.tgt tgtId
    if t1.refcount > 1 then
      (st1.setTgt tgtId { t1 with refcount := t1.refcount - 1 }, r.2)
    else
      (st1, r.2 ++ gomp_unmap_tgt st1 tgtId)

/-- The per-clause walk of `gomp_update`: each non-zero-size clause that
is present must be contained in its record (else fatal); COPY_TO kinds
issue host→device, COPY_FROM kinds device→host. -/
def updateLoop (st : EngState) (mapnum : Nat) (hostaddrs : List (Option Nat))
    (sizes : List Nat) (kinds : List Kind) (fuel i : Nat) (trace : List Event) :
    Except Unit (List Event) :=
  match fuel with
  | 0 => .ok trace
  | f + 1 =>
  if i < mapnum then
    if szN sizes i ≠ 0 then
      let hs := haN hostaddrs i
      let he := hs + szN sizes i
      match splay_tree_lookup st.keys st.mem_map ⟨hs, he⟩ with
      | some nId =>
          let n := st.key nId
          if n.host_start > hs ∨ n.host_end < he then .error ()
          else
            let op := (kindN kinds i).op
            let base := (st.tgt n.tgt).tgt_start + n.tgt_offset + (hs - n.host_start)
            let ev1 := if op.copyToP then [Event.h2d base hs (he - hs)] else []
            let ev2 := if op.copyFromP then [Event.d2h hs base (he - hs)] else []
            updateLoop st mapnum hostaddrs sizes kinds f (i + 1) (trace ++ ev1 ++ ev2)
      | none => updateLoop st mapnum hostaddrs sizes kinds f (i + 1) trace
    else updateLoop st mapnum hostaddrs sizes kinds f (i + 1) trace
  else .ok trace

/-- `gomp_update`: perform the transfers of a `target update` batch; the
mapping state (records, descriptors, index) is returned untouched — the
walk only reads it. -/
def gomp_update (st : EngState) (mapnum : Nat) (hostaddrs : List (Option Nat))
    (sizes : List Nat) (kinds : List Kind) : Except Unit (EngState × List Event) :=
  if mapnum = 0 then .ok (st, [])
  else
    match updateLoop st mapnum hostaddrs sizes kinds mapnum 0 [] with
    | .error e => .error e
    | .ok tr => .ok (st, tr)

/-- Apply one host→device copy event to a byte-addressed device memory
(`d2h` and non-copy events leave it unchanged). -/
def stepH2D (host dev : Nat → Nat) : Event → Nat → Nat
  | .h2d dst src len =>
      fun a => if dst ≤ a ∧ a < dst + len then host (src + (a - dst)) else dev a
  | _ => dev

/-- Apply a trace of host→device copy events in order to a device memory. -/
def applyH2D (host : Nat → Nat) : List Event → (Nat → Nat) → Nat → Nat
  | [], dev => dev
  | e :: es, dev => applyH2D host es (stepH2D host dev e)

/-- Modelled from the spec: `GOMP_DEVICE_HOST_FALLBACK` sentinel device
id (gomp-constants.h is not under src/); a negative value distinct from
the ICV sentinel. -/
def GOMP_DEVICE_HOST_FALLBACK : Int := -2

/-- Modelled from the spec: `GOMP_DEVICE_ICV` sentinel device id
("use the default-device ICV"). -/
def GOMP_DEVICE_ICV : Int := -1

/-- One entry of the device registry: its capability bit for compute
offload (`GOMP_OFFLOAD_CAP_OPENMP_400`) and its mapping state. -/
structure DeviceDescr where
  cap_openmp_400 : Bool
  st : EngState
deriving DecidableEq

/-- The process-wide registry visible to the user entry points: the
devices exposed through `gomp_get_num_devices` and the default-device
ICV. -/
structure World where
  devices : List DeviceDescr
  default_device_var : Int
deriving DecidableEq

/-- `gomp_get_num_devices` — the number of OPENMP_400-sorted devices. -/
def gomp_get_num_devices (w : World) : Nat := w.devices.length

/-- `resolve_device`: translate a user device id (ICV sentinel resolved
through the task ICV) into a device descriptor, or none for a negative or
out-of-range id. -/
def resolve_device (w : World) (device_id : Int) : Option DeviceDescr :=
  let d := if device_id = GOMP_DEVICE_ICV then w.default_device_var else device_id
  if d < 0 ∨ d ≥ (gomp_get_num_devices w : Int) then none
  else w.devices[d.toNat]?

/-- `omp_target_is_present`: NULL pointers and host-fallback devices are
always "present"; negative or unresolvable device ids give 0; devices
without compute offload give 1; otherwise the overlap-aware lookup of the
degenerate interval at `ptr` decides. -/
def omp_target_is_present (w : World) (ptr : Nat) (device_num : Int) : Nat :=
  if ptr = 0 then 1
  else if device_num = GOMP_DEVICE_HOST_FALLBACK then 1
  else if device_num < 0 then 0
  else
    match resolve_device w device_num with
    | none => 0
    | some dev =>
        if ¬ dev.cap_openmp_400 then 1
        else
          match (gomp_map_lookup dev.st.keys dev.st.mem_map ⟨ptr, ptr⟩).res with
          | some _ => 1
          | none => 0

/-! ## Auxiliary definitions used by the theorems -/

/-- The probe order the specification states for a degenerate query:
(a) the point itself, (b) the point extended one byte right, (c) the
point extended one byte left, first hit wins.  Written from the spec's
words, to be compared with `gomp_map_lookup` (which probes right, left,
point). -/
def specOrderLookup (keys : List KeyData) (mm : List Nat) (key : Interval) : Option Nat :=
  if key.host_start ≠ key.host_end then splay_tree_lookup keys mm key
  else
    match splay_tree_lookup keys mm key with
    | some n => some n
    | none =>
        match splay_tree_lookup keys mm ⟨key.host_start, uadd1 key.host_end⟩ with
        | some n => some n
        | none => splay_tree_lookup keys mm ⟨usub1 key.host_start, key.host_end⟩

/-- An index holding a degenerate record at address 3 (id 0) and a
non-degenerate record covering [5,9) (id 1); both coexist since the
comparator orders them. -/
def lookupKeys : List KeyData :=
  [⟨3, 3, 0, 0, 1, 0⟩, ⟨5, 9, 0, 0, 1, 0⟩]

/-- The index order for `lookupKeys`. -/
def lookupMM : List Nat := [0, 1]

/-- A state with an image-registered record pinned at
`REFCOUNT_INFINITY` (record 0, owned by the synthetic descriptor 0) that
a later data region's descriptor (id 1) references through its only
slot, as happens when a data region maps an image-registered symbol. -/
def pinnedState : EngState :=
  ⟨[⟨200, 300, 0, 0, REFCOUNT_INFINITY, 0⟩],
    [⟨0, 0, none, REFCOUNT_INFINITY, [], 0⟩,
      ⟨0, 0, none, 1, [⟨some 0, true, false, .ofs 0, 100⟩], 1⟩],
    [0], 0⟩

/-- A descriptor (id 0) whose single record (id 0) has refcount 1 and a
copy-from slot — the state right before the async copy-back of a
`target data` region that mapped one TOFROM variable. -/
def asyncOneState : EngState :=
  ⟨[⟨100, 116, 0, 0, 1, 0⟩],
    [⟨1000, 1016, some 1000, 2, [⟨some 0, true, false, .ofs 0, 16⟩], 1⟩],
    [0], 2000⟩

/-- The empty engine state. -/
def emptyState : EngState := ⟨[], [], [], 0⟩

/-- A device without the compute-offload capability. -/
def devNo400 : DeviceDescr := ⟨false, emptyState⟩

/-- A compute-capable device whose index holds the record [100,116). -/
def devWith400 : DeviceDescr := ⟨true, asyncOneState⟩

/-- A registry with one capable and one incapable device. -/
def worldEx : World := ⟨[devWith400, devNo400], 0⟩

/-- The result of a concrete one-clause TOFROM map batch under the DATA
pragma on the empty state (used to instantiate theorems). -/
def c5wRes : MapVarsRes :=
  (gomp_map_vars (fun _ => 0) emptyState 1 [some 100] none [16] [⟨.TOFROM, 3⟩]
    .DATA).toOption.getD ⟨emptyState, none, [], []⟩

/-- Frame relation: the allocation-describing fields (`to_free`,
`tgt_start`, `tgt_end`) of every descriptor agree between two states. -/
def TgtFrame (st st' : EngState) : Prop :=
  ∀ id, ((st'.tgt id).to_free = (st.tgt id).to_free)
    ∧ ((st'.tgt id).tgt_start = (st.tgt id).tgt_start)
    ∧ ((st'.tgt id).tgt_end = (st.tgt id).tgt_end)

/-- The result of the same concrete batch as `c5wRes`, kept separate so
each claim's witness rests on its own definitions. -/
def c4wRes : MapVarsRes :=
  (gomp_map_vars (fun _ => 0) emptyState 1 [some 100] none [16] [⟨.TOFROM, 3⟩]
    .DATA).toOption.getD ⟨emptyState, none, [], []⟩

/-- The pass-1 accumulator of that concrete batch. -/
def c4wAcc : P1 :=
  (pass1 1 [16] [⟨.TOFROM, 3⟩] 1 0
    ⟨⟨[], [⟨0, 0, none, 1, List.replicate 1 VarDesc.uninit, 1⟩], [], 0⟩,
      List.replicate 1 VarDesc.uninit, [some 100], sizeofPtr, 0, 0, false, []⟩).toOption.getD
    ⟨emptyState, [], [], 0, 0, 0, false, []⟩

/-- A one-record state for exercising `gomp_update`: host range
`[100,116)` mapped at device offset 0 of a descriptor starting at 1000. -/
def c9wState : EngState :=
  ⟨[⟨100, 116, 0, 0, 1, 0⟩], [⟨1000, 1016, some 1000, 1, [], 0⟩], [0], 0⟩

/-- The result of one `gomp_update` TO batch on `c9wState`. -/
def c9wRes : EngState × List Event :=
  (gomp_update c9wState 1 [some 100] [16] [⟨.TO, 3⟩]).toOption.getD (c9wState, [])

/-- Is this event a device→host copy? -/
def Event.isD2h : Event → Bool
  | .d2h _ _ _ => true
  | _ => false

/-- The key ids of the keyed slots of a slot list, in order. -/
def keysOf (L : List VarDesc) : List Nat := L.filterMap (fun slot => slot.key)

/-- The copy-back policy as the spec words it, per slot: a keyed slot
issues a device→host copy of its sub-interval exactly when its
`always_copy_from` is set, or when the record's refcount reaches zero in
this call (refcount 1, no async handback) and both `do_copyfrom` and the
slot's `copy_from` are set. -/
def specSlotCopyEvents (st : EngState) (do_copyfrom : Bool) (slot : VarDesc) :
    List Event :=
  match slot.key with
  | none => []
  | some kId =>
      let k := st.key kId
      if ((k.refcount = 1 ∧ k.async_refcount = 0) ∧ do_copyfrom ∧ slot.copy_from)
          ∨ slot.always_copy_from then
        [Event.d2h (k.host_start + slot.offset.toNat)
          ((st.tgt k.tgt).tgt_start + k.tgt_offset + slot.offset.toNat) slot.length]
      else []

/-- A one-slot mapped descriptor for exercising `gomp_unmap_vars`: record
0 covers host `[100,116)` at device offset 0 of descriptor 0, refcount 1,
the slot requesting `copy_from`. -/
def c7wState : EngState :=
  ⟨[⟨100, 116, 0, 0, 1, 0⟩],
    [⟨1000, 1016, some 1000, 2, [⟨some 0, true, false, .ofs 0, 16⟩], 1⟩],
    [0], 0⟩

/-- Two records of refcount 1 owned by one descriptor (refcount 3 =
1 + two records), for the async copy-back / deferred unmap scenario. -/
def c2wState : EngState :=
  ⟨[⟨100, 116, 0, 0, 1, 0⟩, ⟨200, 208, 16, 0, 1, 0⟩],
    [⟨1000, 1024, some 1000, 3,
      [⟨some 0, true, false, .ofs 0, 16⟩, ⟨some 1, false, false, .ofs 0, 8⟩], 2⟩],
    [0, 1], 0⟩

/-! ## Theorems -/

/-- C3 counterexample: at the concrete degenerate intervals [5,5) and
[9,9) the comparator returns 0 (equal), although their addresses differ
and although `x.host_end ≤ y.host_start` would demand `x < y` under the
claimed characterization. -/
theorem c3_degenerate_counterexample :
    splay_compare ⟨5, 5⟩ ⟨9, 9⟩ = 0 ∧ (5 : Nat) ≠ 9 ∧ (5 : Nat) ≤ 9
      ∧ splay_compare ⟨5, 5⟩ ⟨9, 9⟩ ≠ -1 := by
  decide

/-- C3 (amended): for well-formed intervals, two degenerate intervals
always compare equal (whatever their addresses); when not both are
degenerate, `x < y` iff `x.host_end ≤ y.host_start`, `x > y` iff
`x.host_start ≥ y.host_end`, and otherwise they compare equal. -/
theorem c3_splay_compare_characterization (x y : Interval)
    (hx : x.host_start ≤ x.host_end) (hy : y.host_start ≤ y.host_end) :
    (x.host_start = x.host_end ∧ y.host_start = y.host_end → splay_compare x y = 0)
    ∧ (¬(x.host_start = x.host_end ∧ y.host_start = y.host_end) →
        (splay_compare x y = -1 ↔ x.host_end ≤ y.host_start)
        ∧ (splay_compare x y = 1 ↔ x.host_start ≥ y.host_end)
        ∧ (splay_compare x y = 0 ↔
            ¬(x.host_end ≤ y.host_start) ∧ ¬(x.host_start ≥ y.host_end))) := by
  unfold splay_compare
  split_ifs <;> simp_all <;> omega

/-- C3 witness: the characterization evaluated at [0,4) and [4,8). -/
theorem c3_characterization_witness :
    ((0 : Nat) ≤ 4) ∧ ((4 : Nat) ≤ 8) ∧
    ((Interval.host_start ⟨0, 4⟩ = Interval.host_end ⟨0, 4⟩
        ∧ Interval.host_start ⟨4, 8⟩ = Interval.host_end ⟨4, 8⟩ →
          splay_compare ⟨0, 4⟩ ⟨4, 8⟩ = 0)
      ∧ (¬(Interval.host_start ⟨0, 4⟩ = Interval.host_end ⟨0, 4⟩
          ∧ Interval.host_start ⟨4, 8⟩ = Interval.host_end ⟨4, 8⟩) →
        (splay_compare ⟨0, 4⟩ ⟨4, 8⟩ = -1 ↔
            Interval.host_end ⟨0, 4⟩ ≤ Interval.host_start ⟨4, 8⟩)
        ∧ (splay_compare ⟨0, 4⟩ ⟨4, 8⟩ = 1 ↔
            Interval.host_start ⟨0, 4⟩ ≥ Interval.host_end ⟨4, 8⟩)
        ∧ (splay_compare ⟨0, 4⟩ ⟨4, 8⟩ = 0 ↔
            ¬(Interval.host_end ⟨0, 4⟩ ≤ Interval.host_start ⟨4, 8⟩)
            ∧ ¬(Interval.host_start ⟨0, 4⟩ ≥ Interval.host_end ⟨4, 8⟩)))) :=
  ⟨by decide, by decide,
    c3_splay_compare_characterization ⟨0, 4⟩ ⟨4, 8⟩ (by decide) (by decide)⟩

/-- C1 (code bug): `gomp_copy_from_async` on a descriptor whose slot
references a pinned record decrements the `REFCOUNT_INFINITY` refcount
(it takes the `refcount > 1` branch, which has no INFINITY guard, unlike
every other refcount path of the engine). -/
theorem c1_async_decrements_infinity :
    ((gomp_copy_from_async pinnedState 1).1.key 0).refcount = REFCOUNT_INFINITY - 1
    ∧ ((gomp_copy_from_async pinnedState 1).1.key 0).async_refcount = 1
    ∧ REFCOUNT_INFINITY - 1 ≠ REFCOUNT_INFINITY := by
  decide

/-- C2 counterexample: on a descriptor whose single record has
refcount 1, `gomp_copy_from_async` leaves `async_refcount` at 0 — it is
not incremented to 1 as the claim states (the refcount-to-async handoff
happens only in the `refcount > 1` branch). -/
theorem c2_no_async_handoff_counterexample :
    ((gomp_copy_from_async asyncOneState 0).1.key 0).async_refcount = 0
    ∧ ((gomp_copy_from_async asyncOneState 0).1.key 0).refcount = 1
    ∧ (0 : Nat) ≠ 1 := by
  decide

/-- C5 counterexample: `gomp_map_vars` with `mapnum = 0` under
ENTER_DATA returns early with a non-null descriptor (id 0) whose
refcount is 0 — the ENTER_DATA fast-return is never reached, although
nothing was newly mapped. -/
theorem c5_mapnum_zero_counterexample :
    (gomp_map_vars (fun _ => 0) emptyState 0 [] none [] [] .ENTER_DATA).toOption.map
        (fun r => (r.tgtId, (r.st.tgt 0).refcount))
      = some (some 0, 0) := by
  decide

/-- C4 counterexample: `gomp_map_vars` with `mapnum = 0` under a TARGET
pragma and no preallocated device memory returns early without ever
calling the device allocator (the trace is empty), although the claimed
iff demands an allocation for every TARGET batch. -/
theorem c4_mapnum_zero_counterexample :
    (gomp_map_vars (fun _ => 0) emptyState 0 [] none [] [] .TARGET).toOption.map
        (fun r => r.trace)
      = some [] := by
  decide

/-- In-range `uintptr_t` increment then decrement restores the value. -/
theorem usub1_uadd1 (x : Nat) (h : x < WORD) : usub1 (uadd1 x) = x := by
  unfold usub1 uadd1 WORD at *
  omega

/-- In-range `uintptr_t` decrement then increment restores the value. -/
theorem uadd1_usub1 (x : Nat) (h : x < WORD) : uadd1 (usub1 x) = x := by
  unfold usub1 uadd1 WORD at *
  omega

/-- C8 (amended): `gomp_map_lookup` restores the caller's query key
exactly, passes non-degenerate queries straight to `splay_tree_lookup`,
and probes a degenerate query extended one byte right, then extended one
byte left, then as the point itself — first hit wins. -/
theorem c8_lookup_probes (keys : List KeyData) (mm : List Nat) (key : Interval)
    (h1 : key.host_start < WORD) (h2 : key.host_end < WORD) :
    (gomp_map_lookup keys mm key).key = key
    ∧ (key.host_start ≠ key.host_end →
        (gomp_map_lookup keys mm key).res = splay_tree_lookup keys mm key)
    ∧ (key.host_start = key.host_end →
        (gomp_map_lookup keys mm key).res =
          Option.orElse (splay_tree_lookup keys mm ⟨key.host_start, uadd1 key.host_end⟩)
            (fun _ =>
              Option.orElse (splay_tree_lookup keys mm ⟨usub1 key.host_start, key.host_end⟩)
                (fun _ => splay_tree_lookup keys mm key))) := by
  by_cases hd : key.host_start = key.host_end
  · unfold gomp_map_lookup
    rw [if_neg (by simp [hd])]
    simp only [usub1_uadd1 key.host_end h2, uadd1_usub1 key.host_start h1]
    cases hR : splay_tree_lookup keys mm ⟨key.host_start, uadd1 key.host_end⟩ with
    | some n => exact ⟨rfl, fun h => absurd hd h, fun _ => rfl⟩
    | none =>
        cases hL : splay_tree_lookup keys mm ⟨usub1 key.host_start, key.host_end⟩ with
        | some n => exact ⟨rfl, fun h => absurd hd h, fun _ => rfl⟩
        | none => exact ⟨rfl, fun h => absurd hd h, fun _ => rfl⟩
  · unfold gomp_map_lookup
    rw [if_pos hd]
    exact ⟨rfl, fun _ => rfl, fun h => absurd h hd⟩

/-- C8 witness: the amended probe behavior evaluated on the two-record
index at the degenerate query [6,6). -/
theorem c8_lookup_probes_witness :
    ((6 : Nat) < WORD) ∧
    ((gomp_map_lookup lookupKeys lookupMM ⟨6, 6⟩).key = ⟨6, 6⟩
      ∧ (Interval.host_start ⟨6, 6⟩ ≠ Interval.host_end ⟨6, 6⟩ →
          (gomp_map_lookup lookupKeys lookupMM ⟨6, 6⟩).res =
            splay_tree_lookup lookupKeys lookupMM ⟨6, 6⟩)
      ∧ (Interval.host_start ⟨6, 6⟩ = Interval.host_end ⟨6, 6⟩ →
          (gomp_map_lookup lookupKeys lookupMM ⟨6, 6⟩).res =
            Option.orElse
              (splay_tree_lookup lookupKeys lookupMM
                ⟨Interval.host_start ⟨6, 6⟩, uadd1 (Interval.host_end ⟨6, 6⟩)⟩)
              (fun _ =>
                Option.orElse
                  (splay_tree_lookup lookupKeys lookupMM
                    ⟨usub1 (Interval.host_start ⟨6, 6⟩), Interval.host_end ⟨6, 6⟩⟩)
                  (fun _ => splay_tree_lookup lookupKeys lookupMM ⟨6, 6⟩)))) :=
  ⟨by decide, c8_lookup_probes lookupKeys lookupMM ⟨6, 6⟩ (by decide) (by decide)⟩

/-- C10: `omp_target_is_present` returns 1 without consulting any index
for a NULL pointer, the HOST_FALLBACK sentinel, or a resolved device
without the OPENMP_400 capability; returns 0 for a negative or
unresolvable device id; and otherwise is decided by the overlap-aware
lookup of the degenerate interval at `ptr`. -/
theorem c10_is_present_guards (w : World) (p : Nat) (dn : Int) :
    (p = 0 → omp_target_is_present w p dn = 1)
    ∧ (p ≠ 0 → dn = GOMP_DEVICE_HOST_FALLBACK → omp_target_is_present w p dn = 1)
    ∧ (p ≠ 0 → dn ≠ GOMP_DEVICE_HOST_FALLBACK → dn < 0 → omp_target_is_present w p dn = 0)
    ∧ (p ≠ 0 → dn ≠ GOMP_DEVICE_HOST_FALLBACK → 0 ≤ dn → resolve_device w dn = none →
        omp_target_is_present w p dn = 0)
    ∧ (∀ dev, p ≠ 0 → dn ≠ GOMP_DEVICE_HOST_FALLBACK → 0 ≤ dn →
        resolve_device w dn = some dev → dev.cap_openmp_400 = false →
        omp_target_is_present w p dn = 1)
    ∧ (∀ dev, p ≠ 0 → dn ≠ GOMP_DEVICE_HOST_FALLBACK → 0 ≤ dn →
        resolve_device w dn = some dev → dev.cap_openmp_400 = true →
        omp_target_is_present w p dn =
          if (gomp_map_lookup dev.st.keys dev.st.mem_map ⟨p, p⟩).res.isSome then 1 else 0) := by
  refine ⟨fun hp => by simp [omp_target_is_present, hp], ?_, ?_, ?_, ?_, ?_⟩
  · intro hp hf
    simp [omp_target_is_present, hp, hf]
  · intro hp hf hneg
    unfold omp_target_is_present
    rw [if_neg hp, if_neg hf, if_pos hneg]
  · intro hp hf hnn hres
    have hneg : ¬ dn < 0 := by omega
    simp [omp_target_is_present, hp, hf, hneg, hres]
  · intro dev hp hf hnn hres hcap
    have hneg : ¬ dn < 0 := by omega
    simp [omp_target_is_present, hp, hf, hneg, hres, hcap]
  · intro dev hp hf hnn hres hcap
    have hneg : ¬ dn < 0 := by omega
    unfold omp_target_is_present
    rw [if_neg hp, if_neg hf, if_neg hneg]
    simp only [hres, hcap]
    cases hL : (gomp_map_lookup dev.st.keys dev.st.mem_map ⟨p, p⟩).res with
    | some n => simp [hL]
    | none => simp [hL]

/-- C10 witness: the lookup-decided branch evaluated on the concrete
registry at pointer 100 and device 0. -/
theorem c10_is_present_witness :
    ((100 : Nat) ≠ 0) ∧ ((0 : Int) ≠ GOMP_DEVICE_HOST_FALLBACK)
    ∧ ((0 : Int) ≤ 0) ∧ resolve_device worldEx 0 = some devWith400
    ∧ devWith400.cap_openmp_400 = true
    ∧ omp_target_is_present worldEx 100 0 =
        (if (gomp_map_lookup devWith400.st.keys devWith400.st.mem_map ⟨100, 100⟩).res.isSome
          then 1 else 0) :=
  ⟨by decide, by decide, by decide, by decide, by decide,
    (c10_is_present_guards worldEx 100 0).2.2.2.2.2 devWith400 (by decide) (by decide)
      (by decide) (by decide) (by decide)⟩

/-- Reading back a record just written (`*k` after an update through `k->`). -/
theorem key_setKey_self (st : EngState) (id : Nat) (k : KeyData) (h : id < st.keys.length) :
    (st.setKey id k).key id = k := by
  simp [EngState.setKey, EngState.key, List.getD, List.getElem?_set_eq_of_lt, h]

/-- Writing one record leaves every other record unchanged. -/
theorem key_setKey_ne (st : EngState) (id id' : Nat) (k : KeyData) (h : id ≠ id') :
    (st.setKey id k).key id' = st.key id' := by
  simp [EngState.setKey, EngState.key, List.getD, List.getElem?_set_ne, h]

/-- Writing a record does not touch the descriptor heap. -/
theorem tgt_setKey (st : EngState) (id : Nat) (k : KeyData) :
    (st.setKey id k).tgt = st.tgt := rfl

/-- Writing a record does not touch the index. -/
theorem mem_map_setKey (st : EngState) (id : Nat) (k : KeyData) :
    (st.setKey id k).mem_map = st.mem_map := rfl

/-- Reading back a descriptor just written. -/
theorem tgt_setTgt_self (st : EngState) (id : Nat) (t : TgtData) (h : id < st.tgts.length) :
    (st.setTgt id t).tgt id = t := by
  simp [EngState.setTgt, EngState.tgt, List.getD, List.getElem?_set_eq_of_lt, h]

/-- Writing one descriptor leaves every other descriptor unchanged. -/
theorem tgt_setTgt_ne (st : EngState) (id id' : Nat) (t : TgtData) (h : id ≠ id') :
    (st.setTgt id t).tgt id' = st.tgt id' := by
  simp [EngState.setTgt, EngState.tgt, List.getD, List.getElem?_set_ne, h]

/-- Writing a descriptor does not touch the record heap. -/
theorem key_setTgt (st : EngState) (id : Nat) (t : TgtData) :
    (st.setTgt id t).key = st.key := rfl

/-- C6: `gomp_map_vars_existing` fails fatally exactly when the clause
carries the FORCE flag or the new host range is not contained in the old
record; on success it bumps the old record's refcount unless it is
INFINITY, and issues an immediate host→device copy of exactly the new
sub-interval for ALWAYS_TO-kind clauses (and no copy otherwise). -/
theorem c6_existing_force_contain (st : EngState) (oldnId : Nat) (newn : Interval) (op : MapOp)
    (hv : oldnId < st.keys.length) :
    (gomp_map_vars_existing st oldnId newn op = .error () ↔
      (op.forceFlag = true ∨ (st.key oldnId).host_start > newn.host_start
        ∨ (st.key oldnId).host_end < newn.host_end))
    ∧ (∀ st' slot ev, gomp_map_vars_existing st oldnId newn op = .ok (st', slot, ev) →
        ((st'.key oldnId).refcount =
            (if (st.key oldnId).refcount = REFCOUNT_INFINITY then REFCOUNT_INFINITY
              else (st.key oldnId).refcount + 1))
          ∧ ev = (if op.alwaysToP then
                [Event.h2d ((st.tgt (st.key oldnId).tgt).tgt_start + (st.key oldnId).tgt_offset
                    + (newn.host_start - (st.key oldnId).host_start))
                  newn.host_start (newn.host_end - newn.host_start)]
              else [])
          ∧ slot.key = some oldnId) := by
  unfold gomp_map_vars_existing
  by_cases hc : (op.forceFlag = true ∨ (st.key oldnId).host_start > newn.host_start
      ∨ (st.key oldnId).host_end < newn.host_end)
  · rw [if_pos (by exact_mod_cast hc)]
    exact ⟨⟨fun _ => hc, fun _ => rfl⟩, fun st' slot ev h => Except.noConfusion h⟩
  · rw [if_neg (by exact_mod_cast hc)]
    refine ⟨⟨fun h => Except.noConfusion h, fun h => absurd h hc⟩, fun st' slot ev h => ?_⟩
    obtain ⟨hst, hslot, hev⟩ : st' = _ ∧ slot = _ ∧ ev = _ := by
      injection h with h1
      injection h1 with ha hb
      injection hb with hb1 hb2
      exact ⟨ha.symm, hb1.symm, hb2.symm⟩
    subst hst hslot hev
    refine ⟨?_, rfl, rfl⟩
    by_cases hinf : (st.key oldnId).refcount = REFCOUNT_INFINITY
    · simp [hinf]
    · rw [if_neg hinf, if_pos hinf, key_setKey_self st oldnId _ hv]

/-- C6 witness: the success path evaluated on a concrete containment hit
(record [100,116), clause [104,108) of kind ALWAYS_TO). -/
theorem c6_existing_witness :
    (0 < asyncOneState.keys.length)
    ∧ ((gomp_map_vars_existing asyncOneState 0 ⟨104, 108⟩ .ALWAYS_TO = .error () ↔
        (MapOp.forceFlag .ALWAYS_TO = true
          ∨ (asyncOneState.key 0).host_start > Interval.host_start ⟨104, 108⟩
          ∨ (asyncOneState.key 0).host_end < Interval.host_end ⟨104, 108⟩))
      ∧ (∀ st' slot ev,
          gomp_map_vars_existing asyncOneState 0 ⟨104, 108⟩ .ALWAYS_TO = .ok (st', slot, ev) →
          ((st'.key 0).refcount =
              (if (asyncOneState.key 0).refcount = REFCOUNT_INFINITY then REFCOUNT_INFINITY
                else (asyncOneState.key 0).refcount + 1))
            ∧ ev = (if MapOp.alwaysToP .ALWAYS_TO then
                  [Event.h2d
                      ((asyncOneState.tgt (asyncOneState.key 0).tgt).tgt_start
                          + (asyncOneState.key 0).tgt_offset
                          + (Interval.host_start ⟨104, 108⟩ - (asyncOneState.key 0).host_start))
                      (Interval.host_start ⟨104, 108⟩)
                      (Interval.host_end ⟨104, 108⟩ - Interval.host_start ⟨104, 108⟩)]
                else [])
            ∧ slot.key = some 0)) :=
  ⟨by decide, c6_existing_force_contain asyncOneState 0 ⟨104, 108⟩ .ALWAYS_TO (by decide)⟩

/-- C8 counterexample: on an index holding a degenerate record at 3 and
the record [5,9), the degenerate query [6,6) returns the record [5,9)
(the code probes the right extension first), while probing the point
itself first — as the claim orders the probes — would return the
unrelated degenerate record at 3. -/
theorem c8_probe_order_counterexample :
    (gomp_map_lookup lookupKeys lookupMM ⟨6, 6⟩).res = some 1
    ∧ specOrderLookup lookupKeys lookupMM ⟨6, 6⟩ = some 0
    ∧ (some 1 ≠ (some 0 : Option Nat)) := by
  decide

/-- C5 (amended): for a non-empty batch, `gomp_map_vars` returns none
exactly when the pragma is ENTER_DATA and the descriptor's refcount is
still 0 on exit; for every other pragma kind it returns the (non-null)
descriptor.  (With `mapnum = 0` the early return hands out the
descriptor before the fast-return check.) -/
theorem c5_enter_data_return (hostMem : Nat → Nat) (st0 : EngState) (mapnum : Nat)
    (hostaddrs : List (Option Nat)) (devaddrs : Option (List Nat)) (sizes : List Nat)
    (kinds : List Kind) (pragma : Pragma) (r : MapVarsRes)
    (hm : mapnum ≠ 0)
    (h : gomp_map_vars hostMem st0 mapnum hostaddrs devaddrs sizes kinds pragma = .ok r) :
    (r.tgtId = none ↔ (pragma = .ENTER_DATA ∧ (r.st.tgt st0.tgts.length).refcount = 0))
    ∧ (pragma ≠ .ENTER_DATA → r.tgtId = some st0.tgts.length) := by
  simp only [gomp_map_vars] at h
  rw [if_neg hm] at h
  split at h
  · exact Except.noConfusion h
  · split at h
    · exact Except.noConfusion h
    · split at h
      · exact Except.noConfusion h
      · split at h
        · injection h with h'
          subst h'
          rename_i hcond
          refine ⟨⟨fun _ => hcond, fun _ => rfl⟩, fun hne => absurd hcond.1 hne⟩
        · injection h with h'
          subst h'
          rename_i hcond
          exact ⟨⟨fun hx => Option.noConfusion hx, fun hx => absurd hx hcond⟩, fun _ => rfl⟩

/-- C5 witness: a one-clause TOFROM batch under the DATA pragma on the
empty state returns the descriptor (id 0). -/
theorem c5_enter_data_witness :
    ((1 : Nat) ≠ 0)
    ∧ (c5wRes.tgtId = none ↔
        ((Pragma.DATA = .ENTER_DATA) ∧ (c5wRes.st.tgt emptyState.tgts.length).refcount = 0))
    ∧ (Pragma.DATA ≠ .ENTER_DATA → c5wRes.tgtId = some emptyState.tgts.length) :=
  ⟨by decide,
    c5_enter_data_return (fun _ => 0) emptyState 1 [some 100] none [16] [⟨.TOFROM, 3⟩]
      .DATA c5wRes (by decide) (by rfl)⟩

/-- `gomp_map_vars_existing` never calls the device allocator. -/
theorem no_alloc_existing (st : EngState) (id : Nat) (n : Interval) (op : MapOp)
    (st' : EngState) (slot : VarDesc) (ev : List Event)
    (h : gomp_map_vars_existing st id n op = .ok (st', slot, ev)) :
    ∀ s, Event.allocEv s ∉ ev := by
  unfold gomp_map_vars_existing at h
  simp only [] at h
  split at h
  · exact Except.noConfusion h
  · injection h with h'
    injection h' with h1 h2
    injection h2 with h2a h2b
    subst h2b
    split <;> simp

/-- `gomp_map_pointer` never calls the device allocator. -/
theorem no_alloc_map_pointer (st : EngState) (tgtId : Nat) (hp tofs bias : Nat)
    (ev : List Event) (h : gomp_map_pointer st tgtId hp tofs bias = .ok ev) :
    ∀ s, Event.allocEv s ∉ ev := by
  unfold gomp_map_pointer at h
  simp only [] at h
  split at h
  · injection h with h'
    subst h'
    simp
  · split at h
    · exact Except.noConfusion h
    · injection h with h'
      subst h'
      simp

/-- The zero-size fall-back of `gomp_map_fields_existing` never calls the
device allocator. -/
theorem no_alloc_fields_rest (st : EngState) (nId first i : Nat) (cur : Interval) (op : MapOp)
    (hostaddrs : List (Option Nat)) (sizes : List Nat)
    (st' : EngState) (slot : VarDesc) (ev : List Event)
    (h : gomp_map_fields_existing.fieldsRest st nId first i cur op hostaddrs sizes
        = .ok (st', slot, ev)) :
    ∀ s, Event.allocEv s ∉ ev := by
  unfold gomp_map_fields_existing.fieldsRest at h
  simp only [] at h
  split at h
  · split at h
    · exact no_alloc_existing _ _ _ _ _ _ _ h
    · split at h
      · split at h
        · exact no_alloc_existing _ _ _ _ _ _ _ h
        · exact Except.noConfusion h
      · exact Except.noConfusion h
  · exact Except.noConfusion h

/-- `gomp_map_fields_existing` never calls the device allocator. -/
theorem no_alloc_fields (st : EngState) (nId first i : Nat)
    (hostaddrs : List (Option Nat)) (sizes : List Nat) (kinds : List Kind)
    (st' : EngState) (slot : VarDesc) (ev : List Event)
    (h : gomp_map_fields_existing st nId first i hostaddrs sizes kinds = .ok (st', slot, ev)) :
    ∀ s, Event.allocEv s ∉ ev := by
  unfold gomp_map_fields_existing at h
  simp only [] at h
  split at h
  · split at h
    · exact no_alloc_existing _ _ _ _ _ _ _ h
    · exact no_alloc_fields_rest _ _ _ _ _ _ _ _ _ _ _ h
  · exact no_alloc_fields_rest _ _ _ _ _ _ _ _ _ _ _ h

/-- `structFields` only appends allocator-free events to the trace. -/
theorem no_alloc_structFields (hostaddrs : List (Option Nat)) (sizes : List Nat)
    (kinds : List Kind) (nId first : Nat) :
    ∀ count j st list trace st' l' tr',
      structFields hostaddrs sizes kinds nId first count j st list trace = .ok (st', l', tr') →
      ∀ s, Event.allocEv s ∈ tr' → Event.allocEv s ∈ trace := by
  intro count
  induction count with
  | zero =>
      intro j st list trace st' l' tr' h s hs
      unfold structFields at h
      injection h with h'
      obtain htr : tr' = trace := by
        injection h' with ha hb
        injection hb with hb1 hb2
        exact hb2.symm
      subst htr
      exact hs
  | succ c ih =>
      intro j st list trace st' l' tr' h s hs
      unfold structFields at h
      split at h
      · exact Except.noConfusion h
      · rename_i st1 slot ev heq
        have := ih (j + 1) st1 (list.set j slot) (trace ++ ev) st' l' tr' h s hs
        rcases List.mem_append.mp this with h1 | h2
        · exact h1
        · exact absurd h2 (no_alloc_fields _ _ _ _ _ _ _ _ _ _ heq s)

/-- `psetScan2` only appends allocator-free events to the trace. -/
theorem no_alloc_psetScan2 (hostMem : Nat → Nat) (hostaddrs : List (Option Nat))
    (sizes : List Nat) (kinds : List Kind) (mapnum tgtId kId : Nat) :
    ∀ fuel j st list trace st' l' tr' c,
      psetScan2 hostMem hostaddrs sizes kinds mapnum tgtId kId fuel j st list trace
        = .ok (st', l', tr', c) →
      ∀ s, Event.allocEv s ∈ tr' → Event.allocEv s ∈ trace := by
  intro fuel
  induction fuel with
  | zero =>
      intro j st list trace st' l' tr' c h s hs
      unfold psetScan2 at h
      injection h with h'
      obtain htr : tr' = trace := by
        injection h' with ha hb
        injection hb with hb1 hb2
        injection hb2 with hc1 hc2
        exact hc1.symm
      subst htr
      exact hs
  | succ f ih =>
      intro j st list trace st' l' tr' c h s hs
      unfold psetScan2 at h
      simp only [] at h
      split at h
      · split at h
        · injection h with h'
          obtain htr : tr' = trace := by
            injection h' with ha hb
            injection hb with hb1 hb2
            injection hb2 with hc1 hc2
            exact hc1.symm
          subst htr
          exact hs
        · split at h
          · injection h with h'
            obtain htr : tr' = trace := by
              injection h' with ha hb
              injection hb with hb1 hb2
              injection hb2 with hc1 hc2
              exact hc1.symm
            subst htr
            exact hs
          · split at h
            · exact Except.noConfusion h
            · rename_i ev hev
              split at h
              · exact Except.noConfusion h
              · rename_i st2 l2 tr2 c2 heq
                injection h with h'
                obtain htr : tr' = tr2 := by
                  injection h' with ha hb
                  injection hb with hb1 hb2
                  injection hb2 with hc1 hc2
                  exact hc1.symm
                subst htr
                have := ih _ _ _ _ _ _ _ _ heq s hs
                rcases List.mem_append.mp this with h1 | h2
                · exact h1
                · exact absurd h2 (no_alloc_map_pointer _ _ _ _ _ _ hev s)
      · injection h with h'
        obtain htr : tr' = trace := by
          injection h' with ha hb
          injection hb with hb1 hb2
          injection hb2 with hc1 hc2
          exact hc1.symm
        subst htr
        exact hs

/-- `TgtFrame` is reflexive. -/
theorem TgtFrame.refl (st : EngState) : TgtFrame st st := fun _ => ⟨rfl, rfl, rfl⟩

/-- `TgtFrame` is transitive. -/
theorem TgtFrame.trans {a b c : EngState} (h1 : TgtFrame a b) (h2 : TgtFrame b c) :
    TgtFrame a c := fun id =>
  ⟨(h2 id).1.trans (h1 id).1, (h2 id).2.1.trans (h1 id).2.1, (h2 id).2.2.trans (h1 id).2.2⟩

/-- Writing a record preserves the descriptor allocation fields. -/
theorem TgtFrame.setKey (st : EngState) (id : Nat) (k : KeyData) :
    TgtFrame st (st.setKey id k) := fun _ => ⟨rfl, rfl, rfl⟩

/-- Changing only a descriptor's refcount (or slot list) preserves the
allocation fields of every descriptor. -/
theorem TgtFrame.setTgt_same_fields (st : EngState) (id : Nat) (t : TgtData)
    (hf : t.to_free = (st.tgt id).to_free) (hs : t.tgt_start = (st.tgt id).tgt_start)
    (he : t.tgt_end = (st.tgt id).tgt_end) :
    TgtFrame st (st.setTgt id t) := by
  intro id'
  by_cases heq : id = id'
  · subst heq
    by_cases hlt : id < st.tgts.length
    · rw [tgt_setTgt_self st id t hlt]
      exact ⟨hf, hs, he⟩
    · have : st.tgts.set id t = st.tgts := List.set_eq_of_length_le (by omega)
      simp [EngState.setTgt, this, EngState.tgt]
  · rw [tgt_setTgt_ne st id id' t heq]
    exact ⟨rfl, rfl, rfl⟩

/-- `gomp_map_vars_existing` preserves the descriptor heap entirely. -/
theorem tgts_existing (st : EngState) (id : Nat) (n : Interval) (op : MapOp)
    (st' : EngState) (slot : VarDesc) (ev : List Event)
    (h : gomp_map_vars_existing st id n op = .ok (st', slot, ev)) :
    st'.tgts = st.tgts := by
  unfold gomp_map_vars_existing at h
  simp only [] at h
  split at h
  · exact Except.noConfusion h
  · injection h with h'
    injection h' with ha hb
    subst ha
    split <;> rfl

/-- `gomp_map_fields_existing` preserves the descriptor heap. -/
theorem tgts_fields (st : EngState) (nId first i : Nat)
    (hostaddrs : List (Option Nat)) (sizes : List Nat) (kinds : List Kind)
    (st' : EngState) (slot : VarDesc) (ev : List Event)
    (h : gomp_map_fields_existing st nId first i hostaddrs sizes kinds = .ok (st', slot, ev)) :
    st'.tgts = st.tgts := by
  unfold gomp_map_fields_existing at h
  simp only [] at h
  split at h
  · split at h
    · exact tgts_existing _ _ _ _ _ _ _ h
    · unfold gomp_map_fields_existing.fieldsRest at h
      simp only [] at h
      split at h
      · split at h
        · exact tgts_existing _ _ _ _ _ _ _ h
        · split at h
          · split at h
            · exact tgts_existing _ _ _ _ _ _ _ h
            · exact Except.noConfusion h
          · exact Except.noConfusion h
      · exact Except.noConfusion h
  · unfold gomp_map_fields_existing.fieldsRest at h
    simp only [] at h
    split at h
    · split at h
      · exact tgts_existing _ _ _ _ _ _ _ h
      · split at h
        · split at h
          · exact tgts_existing _ _ _ _ _ _ _ h
          · exact Except.noConfusion h
        · exact Except.noConfusion h
    · exact Except.noConfusion h

/-- `structFields` preserves the descriptor heap. -/
theorem tgts_structFields (hostaddrs : List (Option Nat)) (sizes : List Nat)
    (kinds : List Kind) (nId first : Nat) :
    ∀ count j st list trace st' l' tr',
      structFields hostaddrs sizes kinds nId first count j st list trace = .ok (st', l', tr') →
      st'.tgts = st.tgts := by
  intro count
  induction count with
  | zero =>
      intro j st list trace st' l' tr' h
      unfold structFields at h
      injection h with h'
      injection h' with ha hb
      subst ha
      rfl
  | succ c ih =>
      intro j st list trace st' l' tr' h
      unfold structFields at h
      split at h
      · exact Except.noConfusion h
      · rename_i st1 slot ev heq
        exact (ih _ _ _ _ _ _ _ h).trans (tgts_fields _ _ _ _ _ _ _ _ _ _ heq)

/-- Pass 1 preserves the descriptor heap. -/
theorem tgts_pass1 (mapnum : Nat) (sizes : List Nat) (kinds : List Kind) :
    ∀ fuel i acc acc',
      pass1 mapnum sizes kinds fuel i acc = .ok acc' →
      acc'.st.tgts = acc.st.tgts := by
  intro fuel
  induction fuel with
  | zero =>
      intro i acc acc' h
      unfold pass1 at h
      injection h with h'
      subst h'
      rfl
  | succ f ih =>
      intro i acc acc' h
      unfold pass1 at h
      simp only [] at h
      split at h
      · split at h
        · have hx := ih _ _ _ h
          exact hx
        · split at h
          · split at h
            · exact Except.noConfusion h
            · have hx := ih _ _ _ h
              exact hx
          · split at h
            · split at h
              · have hx := ih _ _ _ h
                exact hx
              · split at h
                · exact Except.noConfusion h
                · rename_i st1 l1 tr1 heq
                  have hx := ih _ _ _ h
                  have hy := tgts_structFields _ _ _ _ _ _ _ _ _ _ _ _ _ heq
                  exact hx.trans hy
            · split at h
              · have hx := ih _ _ _ h
                exact hx
              · split at h
                · split at h
                  · exact Except.noConfusion h
                  · rename_i st1 slot ev heq
                    have hx := ih _ _ _ h
                    have hy := tgts_existing _ _ _ _ _ _ _ heq
                    exact hx.trans hy
                · split at h
                  · have hx := ih _ _ _ h
                    exact hx
                  · split at h
                    · have hx := ih _ _ _ h
                      exact hx
                    · have hx := ih _ _ _ h
                      exact hx
      · injection h with h'
        subst h'
        rfl

/-- Equal descriptor heaps give the allocation-field frame. -/
theorem TgtFrame_of_tgts_eq {st st' : EngState} (h : st'.tgts = st.tgts) :
    TgtFrame st st' := by
  intro id
  unfold EngState.tgt
  rw [h]
  exact ⟨rfl, rfl, rfl⟩

/-- Pass 1 only appends allocator-free events to the trace. -/
theorem no_alloc_pass1 (mapnum : Nat) (sizes : List Nat) (kinds : List Kind) :
    ∀ fuel i acc acc',
      pass1 mapnum sizes kinds fuel i acc = .ok acc' →
      ∀ s, Event.allocEv s ∈ acc'.trace → Event.allocEv s ∈ acc.trace := by
  intro fuel
  induction fuel with
  | zero =>
      intro i acc acc' h s hs
      unfold pass1 at h
      injection h with h'
      subst h'
      exact hs
  | succ f ih =>
      intro i acc acc' h s hs
      unfold pass1 at h
      simp only [] at h
      repeat' split at h
      all_goals
        first
          | exact Except.noConfusion h
          | (injection h with h'
             subst h'
             exact hs)
          | (have hx := ih _ _ _ h s hs
             exact hx)
          | (rename_i st1 slot ev heq
             have hx := ih _ _ _ h s hs
             rcases List.mem_append.mp hx with h1 | h2
             exacts [h1, absurd h2 (no_alloc_existing _ _ _ _ _ _ _ heq s)])
          | (rename_i st1 l1 tr1 heq
             have hx := ih _ _ _ h s hs
             exact no_alloc_structFields _ _ _ _ _ _ _ _ _ _ _ _ _ heq s hx)

/-- `psetScan2` preserves the descriptor heap. -/
theorem tgts_psetScan2 (hostMem : Nat → Nat) (hostaddrs : List (Option Nat))
    (sizes : List Nat) (kinds : List Kind) (mapnum tgtId kId : Nat) :
    ∀ fuel j st list trace st' l' tr' c,
      psetScan2 hostMem hostaddrs sizes kinds mapnum tgtId kId fuel j st list trace
        = .ok (st', l', tr', c) →
      st'.tgts = st.tgts := by
  intro fuel
  induction fuel with
  | zero =>
      intro j st list trace st' l' tr' c h
      unfold psetScan2 at h
      injection h with h'
      injection h' with ha hb
      subst ha
      rfl
  | succ f ih =>
      intro j st list trace st' l' tr' c h
      unfold psetScan2 at h
      simp only [] at h
      repeat' split at h
      all_goals
        first
          | exact Except.noConfusion h
          | (injection h with h'
             injection h' with ha hb
             subst ha
             rfl)
          | (rename_i st2 l2 tr2 c2 heq
             injection h with h'
             injection h' with ha hb
             subst ha
             have hx := ih _ _ _ _ _ _ _ _ heq
             refine hx.trans ?_
             split <;> rfl)

/-- `pass2create` only appends allocator-free events to the trace. -/
theorem no_alloc_pass2create (hostMem : Nat → Nat) (mapnum : Nat) (sizes : List Nat)
    (kinds : List Kind) (tgtId : Nat) (hostaddrs : List (Option Nat)) (i : Nat)
    (acc acc1 : P2) (i1 : Nat)
    (h : pass2create hostMem mapnum sizes kinds tgtId hostaddrs i acc = .ok (acc1, i1)) :
    ∀ s, Event.allocEv s ∈ acc1.trace → Event.allocEv s ∈ acc.trace := by
  intro s hs
  unfold pass2create at h
  simp only [] at h
  repeat' split at h
  all_goals
    first
      | exact Except.noConfusion h
      | (injection h with h'
         injection h' with ha hb
         subst ha
         first
           | exact hs
           | (have hy := no_alloc_psetScan2 _ _ _ _ _ _ _ _ _ _ _ _ _ _ _ _
                (by assumption) s hs
              rcases List.mem_append.mp hy with h1 | h2
              exacts [h1, absurd h2 (by simp)])
           | (rcases List.mem_append.mp hs with h1 | h2
              exacts [h1, absurd h2 (no_alloc_existing _ _ _ _ _ _ _ (by assumption) s)])
           | (rcases List.mem_append.mp hs with h1 | h2
              exacts [h1, absurd h2 (no_alloc_map_pointer _ _ _ _ _ _ (by assumption) s)])
           | (rcases List.mem_append.mp hs with h1 | h2
              exacts [h1, absurd h2 (by simp)]))

/-- Pass 2 only appends allocator-free events to the trace. -/
theorem no_alloc_pass2 (hostMem : Nat → Nat) (mapnum : Nat) (sizes : List Nat)
    (kinds : List Kind) (tgtId : Nat) (hostaddrs : List (Option Nat)) :
    ∀ fuel i acc acc',
      pass2 hostMem mapnum sizes kinds tgtId hostaddrs fuel i acc = .ok acc' →
      ∀ s, Event.allocEv s ∈ acc'.trace → Event.allocEv s ∈ acc.trace := by
  intro fuel
  induction fuel with
  | zero =>
      intro i acc acc' h s hs
      unfold pass2 at h
      injection h with h'
      subst h'
      exact hs
  | succ f ih =>
      intro i acc acc' h s hs
      unfold pass2 at h
      simp only [] at h
      repeat' split at h
      all_goals
        first
          | exact Except.noConfusion h
          | (injection h with h'
             subst h'
             exact hs)
          | (have hx := ih _ _ _ h s hs
             first
               | exact hx
               | (rcases List.mem_append.mp hx with h1 | h2
                  exacts [h1, absurd h2 (by simp)])
               | exact no_alloc_structFields _ _ _ _ _ _ _ _ _ _ _ _ _ (by assumption) s hx
               | exact no_alloc_pass2create _ _ _ _ _ _ _ _ _ _ (by assumption) s hx)

/-- Transport a frame along an equality of descriptor heaps. -/
theorem TgtFrame_of_tgts_eq' {st a b : EngState} (hab : b.tgts = a.tgts)
    (h : TgtFrame st a) : TgtFrame st b := by
  intro id
  have hx := h id
  unfold EngState.tgt at hx ⊢
  rw [hab]
  exact hx

/-- `pass2create` preserves the allocation fields of every descriptor
(it only bumps the new descriptor's refcount and touches records). -/
theorem TgtFrame_pass2create (hostMem : Nat → Nat) (mapnum : Nat) (sizes : List Nat)
    (kinds : List Kind) (tgtId : Nat) (hostaddrs : List (Option Nat)) (i : Nat)
    (acc acc1 : P2) (i1 : Nat)
    (h : pass2create hostMem mapnum sizes kinds tgtId hostaddrs i acc = .ok (acc1, i1)) :
    TgtFrame acc.st acc1.st := by
  unfold pass2create at h
  simp only [] at h
  repeat' split at h
  all_goals
    first
      | exact Except.noConfusion h
      | (injection h with h'
         injection h' with ha hb
         subst ha
         first
           | exact TgtFrame_of_tgts_eq (tgts_existing _ _ _ _ _ _ _ (by assumption))
           | (have h2 := tgts_psetScan2 _ _ _ _ _ _ _ _ _ _ _ _ _ _ _ _ (by assumption)
              have h1 := TgtFrame.setTgt_same_fields acc.st tgtId
                { acc.st.tgt tgtId with refcount := (acc.st.tgt tgtId).refcount + 1 }
                rfl rfl rfl
              exact TgtFrame_of_tgts_eq' (h2.trans rfl) h1)
           | (have h1 := TgtFrame.setTgt_same_fields acc.st tgtId
                { acc.st.tgt tgtId with refcount := (acc.st.tgt tgtId).refcount + 1 }
                rfl rfl rfl
              exact TgtFrame_of_tgts_eq' rfl h1))

/-- Pass 2 preserves the allocation fields of every descriptor. -/
theorem TgtFrame_pass2 (hostMem : Nat → Nat) (mapnum : Nat) (sizes : List Nat)
    (kinds : List Kind) (tgtId : Nat) (hostaddrs : List (Option Nat)) :
    ∀ fuel i acc acc',
      pass2 hostMem mapnum sizes kinds tgtId hostaddrs fuel i acc = .ok acc' →
      TgtFrame acc.st acc'.st := by
  intro fuel
  induction fuel with
  | zero =>
      intro i acc acc' h
      unfold pass2 at h
      injection h with h'
      subst h'
      exact TgtFrame.refl _
  | succ f ih =>
      intro i acc acc' h
      unfold pass2 at h
      simp only [] at h
      repeat' split at h
      all_goals
        first
          | exact Except.noConfusion h
          | (injection h with h'
             subst h'
             exact TgtFrame.refl _)
          | (have hx := ih _ _ _ h
             first
               | exact hx
               | exact (TgtFrame_of_tgts_eq
                    (tgts_structFields _ _ _ _ _ _ _ _ _ _ _ _ _ (by assumption))).trans hx
               | exact (TgtFrame_pass2create _ _ _ _ _ _ _ _ _ _ (by assumption)).trans hx)

/-- The TARGET argument-array pass issues only pointer writes — never an
allocation. -/
theorem no_alloc_argArray (st : EngState) (list : List VarDesc) (tgtStart : Nat)
    (hostaddrs : List (Option Nat)) (mapnum : Nat) :
    ∀ fuel i s, Event.allocEv s ∉ argArray st list tgtStart hostaddrs mapnum fuel i := by
  intro fuel
  induction fuel with
  | zero =>
      intro i s
      unfold argArray
      simp
  | succ f ih =>
      intro i s
      unfold argArray
      simp only []
      split
      · intro hmem
        rcases List.mem_cons.mp hmem with h1 | h2
        · exact Event.noConfusion h1
        · exact ih (i + 1) s h2
      · simp

/-- C4 (amended): for a non-empty batch with no preallocated `devaddrs`
that completes without a fatal error, the device allocator is invoked
iff pass 1 counted at least one clause as not found or the pragma is
TARGET; otherwise the descriptor owns no device memory. -/
theorem c4_alloc_iff (hostMem : Nat → Nat) (st0 : EngState) (mapnum : Nat)
    (hostaddrs : List (Option Nat)) (sizes : List Nat) (kinds : List Kind)
    (pragma : Pragma) (r : MapVarsRes) (acc : P1)
    (hm : mapnum ≠ 0)
    (h : gomp_map_vars hostMem st0 mapnum hostaddrs none sizes kinds pragma = .ok r)
    (hp : pass1 mapnum sizes kinds mapnum 0
        ⟨{ st0 with tgts := st0.tgts ++
            [{ tgt_start := 0, tgt_end := 0, to_free := none,
               refcount := if pragma = .ENTER_DATA then 0 else 1,
               list := List.replicate mapnum VarDesc.uninit, list_count := mapnum }] },
          List.replicate mapnum VarDesc.uninit, hostaddrs,
          (if pragma = .TARGET then 4 * sizeofPtr else sizeofPtr),
          (if pragma = .TARGET then mapnum * sizeofPtr else 0), 0, false, []⟩ = .ok acc) :
    ((∃ sz, Event.allocEv sz ∈ r.trace) ↔ (acc.not_found_cnt ≠ 0 ∨ pragma = .TARGET))
    ∧ (acc.not_found_cnt = 0 → pragma ≠ .TARGET →
        (r.st.tgt st0.tgts.length).to_free = none
        ∧ (r.st.tgt st0.tgts.length).tgt_start = 0
        ∧ (r.st.tgt st0.tgts.length).tgt_end = 0) := by
  simp only [gomp_map_vars] at h
  rw [if_neg hm] at h
  split at h
  · exact Except.noConfusion h
  · rename_i acc0 heq0
    have hacc : acc0 = acc := by
      have hx := hp.symm.trans heq0
      injection hx with hx'
      exact hx'.symm
    subst hacc
    split at h
    · -- the allocation step cannot fail when devaddrs is absent
      rename_i e heqA
      split at heqA
      · exact Except.noConfusion heqA
      · exact Except.noConfusion heqA
    · rename_i stA evA heqA
      have hlen : st0.tgts.length < acc0.st.tgts.length := by
        have h1 := tgts_pass1 _ _ _ _ _ _ _ hp
        rw [h1]
        simp
      split at heqA
      · -- allocator invoked
        rename_i hcond
        injection heqA with heqA'
        injection heqA' with hstA hevA
        subst hstA
        subst hevA
        split at h
        · exact Except.noConfusion h
        · rename_i p2 heq2
          split at h
          · injection h with h'
            subst h'
            refine ⟨⟨fun _ => hcond, fun _ => ⟨acc0.tgt_size + acc0.tgt_align - 1, by simp⟩⟩,
              fun hnf hnt => ?_⟩
            rcases hcond with hc | hc
            · exact absurd hnf hc
            · exact absurd hc hnt
          · injection h with h'
            subst h'
            refine ⟨⟨fun _ => hcond, fun _ => ⟨acc0.tgt_size + acc0.tgt_align - 1, by simp⟩⟩,
              fun hnf hnt => ?_⟩
            rcases hcond with hc | hc
            · exact absurd hnf hc
            · exact absurd hc hnt
      · -- allocator skipped
        rename_i hcond
        have hTnot : pragma ≠ .TARGET := fun hT => hcond (Or.inr hT)
        have hNz : acc0.not_found_cnt = 0 := by
          by_contra hx
          exact hcond (Or.inl hx)
        injection heqA with heqA'
        injection heqA' with hstA hevA
        subst hstA
        subst hevA
        split at h
        · exact Except.noConfusion h
        · rename_i p2 heq2
          -- facts about the pass-2 stage
          have hp2trace : ∀ s, Event.allocEv s ∈ p2.trace → False := by
            intro s hs
            split at heq2
            · have hx := no_alloc_pass2 _ _ _ _ _ _ _ _ _ _ heq2 s hs
              simp at hx
            · injection heq2 with heq2'
              subst heq2'
              simp at hs
          have hp2frame : TgtFrame
              (acc0.st.setTgt st0.tgts.length
                { tgt_start := 0, tgt_end := 0, to_free := none,
                  refcount := (acc0.st.tgt st0.tgts.length).refcount,
                  list := (acc0.st.tgt st0.tgts.length).list,
                  list_count := (acc0.st.tgt st0.tgts.length).list_count }) p2.st := by
            split at heq2
            · have hx := TgtFrame_pass2 _ _ _ _ _ _ _ _ _ _ heq2
              exact hx
            · injection heq2 with heq2'
              subst heq2'
              exact TgtFrame.refl _
          have hacc0trace : ∀ s, Event.allocEv s ∈ acc0.trace → False := by
            intro s hs
            have hx := no_alloc_pass1 _ _ _ _ _ _ _ hp s hs
            simp at hx
          rw [if_neg hTnot] at h
          split at h
          · injection h with h'
            subst h'
            refine ⟨⟨fun hex => ?_, fun hcon => absurd hcon hcond⟩, fun _ _ => ?_⟩
            · obtain ⟨sz, hsz⟩ := hex
              simp only [List.append_nil, List.nil_append, List.mem_append,
                List.mem_singleton] at hsz
              rcases hsz with (h1 | h2) | h3
              · exact absurd h1 (fun hx => hacc0trace sz hx)
              · exact (hp2trace sz h2).elim
              · exact absurd h3 (by simp)
            · have hcomb := TgtFrame.trans hp2frame
                (TgtFrame.setTgt_same_fields p2.st st0.tgts.length
                  { (p2.st.tgt st0.tgts.length) with list := p2.list } rfl rfl rfl)
              have hself := tgt_setTgt_self acc0.st st0.tgts.length
                { tgt_start := 0, tgt_end := 0, to_free := none,
                  refcount := (acc0.st.tgt st0.tgts.length).refcount,
                  list := (acc0.st.tgt st0.tgts.length).list,
                  list_count := (acc0.st.tgt st0.tgts.length).list_count } hlen
              exact ⟨((hcomb st0.tgts.length).1).trans
                  (congrArg TgtData.to_free hself),
                ((hcomb st0.tgts.length).2.1).trans
                  (congrArg TgtData.tgt_start hself),
                ((hcomb st0.tgts.length).2.2).trans
                  (congrArg TgtData.tgt_end hself)⟩
          · injection h with h'
            subst h'
            refine ⟨⟨fun hex => ?_, fun hcon => absurd hcon hcond⟩, fun _ _ => ?_⟩
            · obtain ⟨sz, hsz⟩ := hex
              simp only [List.append_nil, List.nil_append, List.mem_append,
                List.mem_singleton] at hsz
              rcases hsz with h1 | h2
              · exact absurd h1 (fun hx => hacc0trace sz hx)
              · exact (hp2trace sz h2).elim
            · have hcomb := TgtFrame.trans hp2frame
                (TgtFrame.setTgt_same_fields p2.st st0.tgts.length
                  { (p2.st.tgt st0.tgts.length) with list := p2.list } rfl rfl rfl)
              have hself := tgt_setTgt_self acc0.st st0.tgts.length
                { tgt_start := 0, tgt_end := 0, to_free := none,
                  refcount := (acc0.st.tgt st0.tgts.length).refcount,
                  list := (acc0.st.tgt st0.tgts.length).list,
                  list_count := (acc0.st.tgt st0.tgts.length).list_count } hlen
              exact ⟨((hcomb st0.tgts.length).1).trans
                  (congrArg TgtData.to_free hself),
                ((hcomb st0.tgts.length).2.1).trans
                  (congrArg TgtData.tgt_start hself),
                ((hcomb st0.tgts.length).2.2).trans
                  (congrArg TgtData.tgt_end hself)⟩

/-- C4 witness: the one-clause TOFROM batch (not found, DATA pragma)
instantiating the allocation iff. -/
theorem c4_alloc_iff_witness :
    ((1 : Nat) ≠ 0)
    ∧ (((∃ sz, Event.allocEv sz ∈ c4wRes.trace) ↔
          (c4wAcc.not_found_cnt ≠ 0 ∨ Pragma.DATA = .TARGET))
      ∧ (c4wAcc.not_found_cnt = 0 → Pragma.DATA ≠ .TARGET →
          (c4wRes.st.tgt emptyState.tgts.length).to_free = none
          ∧ (c4wRes.st.tgt emptyState.tgts.length).tgt_start = 0
          ∧ (c4wRes.st.tgt emptyState.tgts.length).tgt_end = 0)) :=
  ⟨by decide,
    c4_alloc_iff (fun _ => 0) emptyState 1 [some 100] [16] [⟨.TOFROM, 3⟩] .DATA
      c4wRes c4wAcc (by decide) (by rfl) (by rfl)⟩

/-- Applying an appended trace is applying the pieces in order. -/
theorem applyH2D_append (host : Nat → Nat) (T1 T2 : List Event) (dev : Nat → Nat) :
    applyH2D host (T1 ++ T2) dev = applyH2D host T2 (applyH2D host T1 dev) := by
  induction T1 generalizing dev with
  | nil => rfl
  | cons e es ih => simp only [List.cons_append, applyH2D]; exact ih _

/-- At every address, a trace of copies either writes a value that does not
depend on the initial device memory, or leaves the address untouched. -/
theorem applyH2D_stable (host : Nat → Nat) :
    ∀ (T : List Event) (dev dev' : Nat → Nat) (a : Nat),
      applyH2D host T dev a = applyH2D host T dev' a ∨
      (applyH2D host T dev a = dev a ∧ applyH2D host T dev' a = dev' a) := by
  intro T
  induction T with
  | nil => intro dev dev' a; right; exact ⟨rfl, rfl⟩
  | cons e es ih =>
      intro dev dev' a
      simp only [applyH2D]
      rcases ih (stepH2D host dev e) (stepH2D host dev' e) a with h | ⟨h1, h2⟩
      · left; exact h
      · rw [h1, h2]
        cases e
        case h2d dst src len =>
          by_cases hin : dst ≤ a ∧ a < dst + len
          · left
            simp only [stepH2D]
            rw [if_pos hin, if_pos hin]
          · right
            simp only [stepH2D]
            rw [if_neg hin, if_neg hin]
            exact ⟨rfl, rfl⟩
        all_goals right; exact ⟨rfl, rfl⟩

/-- Replaying a trace of host→device copies changes nothing. -/
theorem applyH2D_idem (host : Nat → Nat) (T : List Event) (dev : Nat → Nat) (a : Nat) :
    applyH2D host (T ++ T) dev a = applyH2D host T dev a := by
  rw [applyH2D_append]
  rcases applyH2D_stable host T (applyH2D host T dev) dev a with h | ⟨h1, _⟩
  · exact h
  · exact h1

/-- When no kind of the batch requests COPY_FROM, the `gomp_update` walk
emits only host→device events. -/
theorem updateLoop_h2d_only (stq : EngState) (mapnum : Nat)
    (hostaddrs : List (Option Nat)) (sizes : List Nat) (kinds : List Kind)
    (hk : ∀ j, ((kindN kinds j).op).copyFromP = false) :
    ∀ fuel i trace tr,
      (∀ e ∈ trace, ∃ a b c, e = Event.h2d a b c) →
      updateLoop stq mapnum hostaddrs sizes kinds fuel i trace = .ok tr →
      ∀ e ∈ tr, ∃ a b c, e = Event.h2d a b c := by
  intro fuel
  induction fuel with
  | zero =>
      intro i trace tr ht h
      unfold updateLoop at h
      injection h with h
      subst h; exact ht
  | succ f ih =>
      intro i trace tr ht h
      unfold updateLoop at h
      simp only [] at h
      split at h
      · split at h
        · split at h
          · split at h
            · exact Except.noConfusion h
            · refine ih (i + 1) _ tr ?_ h
              intro e he
              rcases List.mem_append.mp he with he1 | he2
              · rcases List.mem_append.mp he1 with he0 | hev1
                · exact ht e he0
                · revert hev1; split
                  · intro hev1
                    rcases List.mem_singleton.mp hev1 with rfl
                    exact ⟨_, _, _, rfl⟩
                  · intro hev1; exact absurd hev1 (List.not_mem_nil e)
              · rw [hk i] at he2
                simp at he2
          · exact ih (i + 1) trace tr ht h
        · exact ih (i + 1) trace tr ht h
      · injection h with h
        subst h; exact ht

/-- C9: gomp_update leaves the mapping state (hence every record and
descriptor refcount) untouched, a second identical call therefore
succeeds with the same transfers, a COPY_TO-only batch emits only
host→device events, and replaying the trace (two successive calls)
leaves the device bytes equal to those of one call. -/
theorem c9_update_idempotent (st : EngState) (mapnum : Nat)
    (hostaddrs : List (Option Nat)) (sizes : List Nat) (kinds : List Kind)
    (host : Nat → Nat) (r : EngState × List Event)
    (hk : ∀ k ∈ kinds, (k.op).copyToP = true ∧ (k.op).copyFromP = false)
    (h : gomp_update st mapnum hostaddrs sizes kinds = .ok r) :
    r.1 = st
    ∧ gomp_update r.1 mapnum hostaddrs sizes kinds = .ok r
    ∧ (∀ e ∈ r.2, ∃ dst src len, e = Event.h2d dst src len)
    ∧ ∀ dev a, applyH2D host (r.2 ++ r.2) dev a = applyH2D host r.2 dev a := by
  have hk' : ∀ j, ((kindN kinds j).op).copyFromP = false := by
    intro j
    unfold kindN
    rcases Nat.lt_or_ge j kinds.length with hlt | hge
    · rw [List.getD_eq_getElem?_getD, List.getElem?_eq_getElem hlt]
      exact (hk _ (List.getElem_mem _)).2
    · rw [List.getD_eq_getElem?_getD, List.getElem?_eq_none hge]
      rfl
  have h0 := h
  unfold gomp_update at h
  split at h
  · injection h with h
    subst h
    refine ⟨rfl, h0, ?_, ?_⟩
    · intro e he; exact absurd he (List.not_mem_nil e)
    · intro dev a; exact applyH2D_idem host _ dev a
  · split at h
    · exact Except.noConfusion h
    · injection h with h
      subst h
      refine ⟨rfl, h0, ?_, ?_⟩
      · exact updateLoop_h2d_only st mapnum hostaddrs sizes kinds hk' mapnum 0 [] _
          (fun e he => absurd he (List.not_mem_nil e)) (by assumption)
      · intro dev a; exact applyH2D_idem host _ dev a

/-- C9 witness: the concrete one-clause TO batch on `c9wState`. -/
theorem c9_update_idempotent_witness :
    c9wRes.1 = c9wState
    ∧ applyH2D (fun _ => 0) (c9wRes.2 ++ c9wRes.2) (fun _ => 0) 1000
        = applyH2D (fun _ => 0) c9wRes.2 (fun _ => 0) 1000 :=
  ⟨(c9_update_idempotent c9wState 1 [some 100] [16] [⟨.TO, 3⟩] (fun _ => 0) c9wRes
      (by decide) (by rfl)).1,
   (c9_update_idempotent c9wState 1 [some 100] [16] [⟨.TO, 3⟩] (fun _ => 0) c9wRes
      (by decide) (by rfl)).2.2.2 (fun _ => 0) 1000⟩

/-- A keyless slot is skipped: no state change, no events. -/
theorem unmapSlotStep_none (st : EngState) (dcf : Bool) (slot : VarDesc)
    (hsk : slot.key = none) : unmapSlotStep st dcf slot = (st, []) := by
  unfold unmapSlotStep
  rw [hsk]

/-- One unmap step only rewrites its own record, erases at most its own
index entry and touches descriptors only at their refcounts. -/
theorem unmapSlotStep_frame (st : EngState) (dcf : Bool) (slot : VarDesc) :
    TgtFrame st (unmapSlotStep st dcf slot).1
    ∧ (unmapSlotStep st dcf slot).1.keys.length = st.keys.length
    ∧ (unmapSlotStep st dcf slot).1.tgts.length = st.tgts.length
    ∧ (∀ kId', slot.key ≠ some kId' → (unmapSlotStep st dcf slot).1.key kId' = st.key kId')
    ∧ (∀ x, x ∉ st.mem_map → x ∉ (unmapSlotStep st dcf slot).1.mem_map)
    ∧ (st.mem_map.Nodup → (unmapSlotStep st dcf slot).1.mem_map.Nodup) := by
  cases hsk : slot.key with
  | none =>
      rw [unmapSlotStep_none st dcf slot hsk]
      exact ⟨TgtFrame.refl st, rfl, rfl, fun _ _ => rfl, fun _ h => h, fun h => h⟩
  | some kId =>
      have hne : ∀ kId', (some kId : Option Nat) ≠ some kId' → kId ≠ kId' := by
        intro kId' h he
        exact h (by rw [he])
      by_cases hc1 : (st.key kId).refcount > 1 ∧ (st.key kId).refcount ≠ REFCOUNT_INFINITY
      · have hres : (unmapSlotStep st dcf slot).1
            = st.setKey kId
                { st.key kId with refcount := (st.key kId).refcount - 1 } := by
          unfold unmapSlotStep
          rw [hsk]
          simp only []
          rw [if_pos hc1]
          rfl
        rw [hres]
        refine ⟨TgtFrame.setKey st kId _, ?_, rfl, ?_, fun _ h => h, fun h => h⟩
        · simp [EngState.setKey]
        · intro kId' h
          exact key_setKey_ne st kId kId' _ (hne kId' h)
      · by_cases hc2 : (st.key kId).refcount = 1
        · by_cases hc3 : (st.key kId).async_refcount > 0
          · have hres : (unmapSlotStep st dcf slot).1
                = st.setKey kId
                    { st.key kId with
                      async_refcount := (st.key kId).async_refcount - 1 } := by
              unfold unmapSlotStep
              rw [hsk]
              simp only []
              rw [if_neg hc1, if_pos hc2, if_pos hc3]
              rfl
            rw [hres]
            refine ⟨TgtFrame.setKey st kId _, ?_, rfl, ?_, fun _ h => h, fun h => h⟩
            · simp [EngState.setKey]
            · intro kId' h
              exact key_setKey_ne st kId kId' _ (hne kId' h)
          · have hres : (unmapSlotStep st dcf slot).1
                = (let C := st.setKey kId { st.key kId with refcount := 0 };
                   let stR : EngState := { C with mem_map := C.mem_map.erase kId };
                   let j := (C.key kId).tgt;
                   let ow := stR.tgt j;
                   if ow.refcount > 1 then
                     ({ stR with
                        tgts := stR.tgts.set j { ow with refcount := ow.refcount - 1 } },
                       [Event.removeEv kId])
                   else (stR, Event.removeEv kId :: gomp_unmap_tgt stR j)).1 := by
              unfold unmapSlotStep
              rw [hsk]
              simp only []
              rw [if_neg hc1, if_pos hc2, if_neg hc3]
              simp only []
              rw [if_pos trivial]
            rw [hres]
            simp only []
            have h1 : TgtFrame st (st.setKey kId { st.key kId with refcount := 0 }) :=
              TgtFrame.setKey st kId _
            have h2 : TgtFrame st
                { st.setKey kId { st.key kId with refcount := 0 } with
                  mem_map :=
                    (st.setKey kId { st.key kId with refcount := 0 }).mem_map.erase kId } :=
              TgtFrame_of_tgts_eq' rfl h1
            split
            · refine ⟨?_, ?_, ?_, ?_, ?_, ?_⟩
              · exact TgtFrame.trans h2 (TgtFrame.setTgt_same_fields _ _ _ rfl rfl rfl)
              · simp [EngState.setKey]
              · simp [EngState.setKey, List.length_set]
              · intro kId' h
                exact key_setKey_ne st kId kId' _ (hne kId' h)
              · intro x h hx
                exact h (List.mem_of_mem_erase hx)
              · intro h
                exact h.erase kId
            · refine ⟨?_, ?_, rfl, ?_, ?_, ?_⟩
              · exact h2
              · simp [EngState.setKey]
              · intro kId' h
                exact key_setKey_ne st kId kId' _ (hne kId' h)
              · intro x h hx
                exact h (List.mem_of_mem_erase hx)
              · intro h
                exact h.erase kId
        · have hres : (unmapSlotStep st dcf slot).1 = st := by
            unfold unmapSlotStep
            rw [hsk]
            simp only []
            rw [if_neg hc1, if_neg hc2]
            rfl
          rw [hres]
          exact ⟨TgtFrame.refl st, rfl, rfl, fun _ _ => rfl, fun _ h => h, fun h => h⟩

/-- Removal notifications are not copies. -/
theorem filter_d2h_removeEv (k : Nat) (l : List Event) :
    (Event.removeEv k :: l).filter Event.isD2h = l.filter Event.isD2h := rfl

/-- Freeing a descriptor issues no device→host copy. -/
theorem gomp_unmap_tgt_no_d2h (st : EngState) (tgtId : Nat) :
    (gomp_unmap_tgt st tgtId).filter Event.isD2h = [] := by
  unfold gomp_unmap_tgt
  simp only []
  split <;> rfl

/-- The record-release tail of one unmap step issues no device→host copy. -/
theorem unmPairNoD2h (stR X : EngState) (j kId : Nat) (cond : Prop) [Decidable cond] :
    ((if cond then (X, [Event.removeEv kId])
      else (stR, Event.removeEv kId :: gomp_unmap_tgt stR j)).2).filter Event.isD2h
      = [] := by
  split
  · rfl
  · rw [filter_d2h_removeEv, gomp_unmap_tgt_no_d2h]

/-- The device→host copies of one unmap step are exactly what the spec's
copy-back policy prescribes for that slot. -/
theorem unmapSlotStep_d2h (st : EngState) (dcf : Bool) (slot : VarDesc) (kId : Nat)
    (hsk : slot.key = some kId) (hb : kId < st.keys.length) :
    (unmapSlotStep st dcf slot).2.filter Event.isD2h = specSlotCopyEvents st dcf slot := by
  have hspec : specSlotCopyEvents st dcf slot
      = if (((st.key kId).refcount = 1 ∧ (st.key kId).async_refcount = 0)
              ∧ dcf ∧ slot.copy_from) ∨ slot.always_copy_from then
          [Event.d2h ((st.key kId).host_start + slot.offset.toNat)
            ((st.tgt (st.key kId).tgt).tgt_start + (st.key kId).tgt_offset
              + slot.offset.toNat) slot.length]
        else [] := by
    unfold specSlotCopyEvents
    rw [hsk]
  rw [hspec]
  by_cases hc1 : (st.key kId).refcount > 1 ∧ (st.key kId).refcount ≠ REFCOUNT_INFINITY
  · have harec := key_setKey_self st kId
      { st.key kId with refcount := (st.key kId).refcount - 1 } hb
    unfold unmapSlotStep
    rw [hsk]
    simp only []
    rw [if_pos hc1]
    simp only [harec, tgt_setKey, Bool.false_eq_true, false_and, false_or]
    rw [if_neg not_false]
    simp only [List.append_nil]
    by_cases ha : slot.always_copy_from = true
    · rw [if_pos ha, if_pos (Or.inr ha)]
      rfl
    · rw [if_neg ha, if_neg (fun h => by
        rcases h with ⟨⟨h1, _⟩, _⟩ | h2
        · exact absurd h1 (by omega)
        · exact ha h2)]
      rfl
  · by_cases hc2 : (st.key kId).refcount = 1
    · by_cases hc3 : (st.key kId).async_refcount > 0
      · have harec := key_setKey_self st kId
          { st.key kId with async_refcount := (st.key kId).async_refcount - 1 } hb
        unfold unmapSlotStep
        rw [hsk]
        simp only []
        rw [if_neg hc1, if_pos hc2, if_pos hc3]
        simp only [harec, tgt_setKey, Bool.false_eq_true, false_and, false_or]
        rw [if_neg not_false]
        simp only [List.append_nil]
        by_cases ha : slot.always_copy_from = true
        · rw [if_pos ha, if_pos (Or.inr ha)]
          rfl
        · rw [if_neg ha, if_neg (fun h => by
            rcases h with ⟨⟨_, h1⟩, _⟩ | h2
            · exact absurd h1 (by omega)
            · exact ha h2)]
          rfl
      · have harec := key_setKey_self st kId
          { st.key kId with refcount := 0 } hb
        have hasync : (st.key kId).async_refcount = 0 := by omega
        unfold unmapSlotStep
        rw [hsk]
        simp only []
        rw [if_neg hc1, if_pos hc2, if_neg hc3]
        simp only [harec, tgt_setKey, eq_self_iff_true, true_and]
        rw [if_pos trivial]
        rw [List.filter_append, unmPairNoD2h, List.append_nil]
        by_cases hcond : (dcf ∧ slot.copy_from) ∨ slot.always_copy_from
        · rw [if_pos hcond, if_pos (hcond.imp (fun hdc => ⟨⟨hc2, hasync⟩, hdc⟩) id)]
          rfl
        · rw [if_neg hcond, if_neg (fun h => hcond (h.imp (fun hh => hh.2) id))]
          rfl
    · unfold unmapSlotStep
      rw [hsk]
      simp only []
      rw [if_neg hc1, if_neg hc2]
      simp only [Bool.false_eq_true, false_and, false_or]
      rw [if_neg not_false]
      simp only [List.append_nil]
      by_cases ha : slot.always_copy_from = true
      · rw [if_pos ha, if_pos (Or.inr ha)]
        rfl
      · rw [if_neg ha, if_neg (fun h => by
          rcases h with ⟨⟨h1, _⟩, _⟩ | h2
          · exact hc2 h1
          · exact ha h2)]
        rfl

/-- The per-slot copy-back policy depends only on the slot's record and
its owner's base address. -/
theorem specSlotCopyEvents_congr (st st' : EngState) (dcf : Bool) (slot : VarDesc)
    (hk : ∀ kId, slot.key = some kId → st'.key kId = st.key kId)
    (hfr : TgtFrame st st') :
    specSlotCopyEvents st' dcf slot = specSlotCopyEvents st dcf slot := by
  cases hsk : slot.key with
  | none =>
      unfold specSlotCopyEvents
      rw [hsk]
  | some kId =>
      unfold specSlotCopyEvents
      rw [hsk]
      simp only []
      rw [hk kId hsk, (hfr (st.key kId).tgt).2.1]

/-- Over a slot list with distinct in-bounds keys, the unmap walk's
device→host copies are exactly the concatenation of the per-slot policy
evaluated in the pre-walk state, and descriptors keep their allocation
fields. -/
theorem unmapLoop_d2h (st : EngState) (dcf : Bool) :
    ∀ (L : List VarDesc) (st' : EngState) (trace : List Event),
      (∀ kId ∈ keysOf L, st'.key kId = st.key kId) →
      TgtFrame st st' →
      st'.keys.length = st.keys.length →
      (∀ kId ∈ keysOf L, kId < st.keys.length) →
      (keysOf L).Nodup →
      (unmapLoop st' dcf trace L).2.filter Event.isD2h
          = trace.filter Event.isD2h ++ L.flatMap (specSlotCopyEvents st dcf)
        ∧ TgtFrame st (unmapLoop st' dcf trace L).1 := by
  intro L
  induction L with
  | nil =>
      intro st' trace hkey hfr hlen hbnd hnod
      exact ⟨by simp [unmapLoop], hfr⟩
  | cons slot rest ih =>
      intro st' trace hkey hfr hlen hbnd hnod
      cases hsk : slot.key with
      | none =>
          have hstep := unmapSlotStep_none st' dcf slot hsk
          have hkeys : keysOf (slot :: rest) = keysOf rest := by
            simp [keysOf, List.filterMap_cons, hsk]
          rw [hkeys] at hkey hbnd hnod
          have hsp : specSlotCopyEvents st dcf slot = [] := by
            unfold specSlotCopyEvents
            rw [hsk]
          have hskip : unmapLoop st' dcf trace (slot :: rest)
              = unmapLoop st' dcf trace rest := by
            show unmapLoop (unmapSlotStep st' dcf slot).1 dcf
                (trace ++ (unmapSlotStep st' dcf slot).2) rest = _
            rw [hstep]
            simp only [List.append_nil]
          rw [hskip]
          have hrec := ih st' trace hkey hfr hlen hbnd hnod
          refine ⟨?_, hrec.2⟩
          rw [hrec.1, List.flatMap_cons, hsp, List.nil_append]
      | some kId =>
          have hkeys : keysOf (slot :: rest) = kId :: keysOf rest := by
            simp [keysOf, List.filterMap_cons, hsk]
          rw [hkeys] at hkey hbnd hnod
          obtain ⟨hnotin, hnodr⟩ := List.nodup_cons.mp hnod
          have hk0 : st'.key kId = st.key kId := hkey kId (List.mem_cons_self _ _)
          have hbk : kId < st.keys.length := hbnd kId (List.mem_cons_self _ _)
          have hbk' : kId < st'.keys.length := by rw [hlen]; exact hbk
          have hstep := unmapSlotStep_frame st' dcf slot
          have hd2h := unmapSlotStep_d2h st' dcf slot kId hsk hbk'
          have hcongr : specSlotCopyEvents st' dcf slot
              = specSlotCopyEvents st dcf slot := by
            refine specSlotCopyEvents_congr st st' dcf slot ?_ hfr
            intro k' hk'
            have hkk : kId = k' := Option.some.inj (hsk.symm.trans hk')
            exact hkk ▸ hk0
          have hkey1 : ∀ k' ∈ keysOf rest,
              (unmapSlotStep st' dcf slot).1.key k' = st.key k' := by
            intro k' hm
            have hne : kId ≠ k' := fun he => hnotin (he ▸ hm)
            have hne' : slot.key ≠ some k' := by
              rw [hsk]
              exact fun hcon => hne (Option.some.inj hcon)
            exact (hstep.2.2.2.1 k' hne').trans (hkey k' (List.mem_cons_of_mem _ hm))
          have hfr1 : TgtFrame st (unmapSlotStep st' dcf slot).1 :=
            TgtFrame.trans hfr hstep.1
          have hlen1 : (unmapSlotStep st' dcf slot).1.keys.length = st.keys.length :=
            hstep.2.1.trans hlen
          have hbnd1 : ∀ k' ∈ keysOf rest, k' < st.keys.length :=
            fun k' hm => hbnd k' (List.mem_cons_of_mem _ hm)
          have hrec := ih (unmapSlotStep st' dcf slot).1
            (trace ++ (unmapSlotStep st' dcf slot).2) hkey1 hfr1 hlen1 hbnd1 hnodr
          constructor
          · show (unmapLoop (unmapSlotStep st' dcf slot).1 dcf
                (trace ++ (unmapSlotStep st' dcf slot).2) rest).2.filter Event.isD2h = _
            rw [hrec.1, List.filter_append, hd2h, hcongr, List.flatMap_cons,
              List.append_assoc]
          · exact hrec.2

/-- C7: in `gomp_unmap_vars(tgt, do_copyfrom)` over slots with distinct
in-bounds keys, the device→host copies issued are exactly those the
spec's per-slot policy prescribes (`always_copy_from`, or refcount
reaching zero with `do_copyfrom` and `copy_from` both set), and when the
descriptor's refcount drops to zero its record array and descriptor are
freed, its device block via `free_func(to_free)` when it owns one. -/
theorem c7_unmap_copyback_policy (st : EngState) (tgtId : Nat) (dcf : Bool)
    (hlc : (st.tgt tgtId).list_count ≠ 0)
    (hbnd : ∀ kId ∈ keysOf ((st.tgt tgtId).list.take (st.tgt tgtId).list_count),
        kId < st.keys.length)
    (hnod : (keysOf ((st.tgt tgtId).list.take (st.tgt tgtId).list_count)).Nodup) :
    (gomp_unmap_vars st tgtId dcf).2.filter Event.isD2h
        = ((st.tgt tgtId).list.take (st.tgt tgtId).list_count).flatMap
            (specSlotCopyEvents st dcf)
    ∧ (((unmapLoop st dcf []
            ((st.tgt tgtId).list.take (st.tgt tgtId).list_count)).1.tgt tgtId).refcount ≤ 1 →
        Event.freeArray tgtId ∈ (gomp_unmap_vars st tgtId dcf).2
        ∧ Event.freeTgt tgtId ∈ (gomp_unmap_vars st tgtId dcf).2
        ∧ ((st.tgt tgtId).tgt_end ≠ 0 →
            Event.freeFuncEv ((st.tgt tgtId).to_free.getD 0)
              ∈ (gomp_unmap_vars st tgtId dcf).2)) := by
  have hloop := unmapLoop_d2h st dcf
    ((st.tgt tgtId).list.take (st.tgt tgtId).list_count) st []
    (fun _ _ => rfl) (TgtFrame.refl st) rfl hbnd hnod
  have h1 := hloop.1
  rw [List.filter_nil, List.nil_append] at h1
  by_cases hgt : ((unmapLoop st dcf []
      ((st.tgt tgtId).list.take (st.tgt tgtId).list_count)).1.tgt tgtId).refcount > 1
  · have hres2 : (gomp_unmap_vars st tgtId dcf).2
        = (unmapLoop st dcf []
            ((st.tgt tgtId).list.take (st.tgt tgtId).list_count)).2 := by
      unfold gomp_unmap_vars
      simp only []
      rw [if_neg hlc, if_pos hgt]
    refine ⟨?_, ?_⟩
    · rw [hres2]
      exact h1
    · intro hle
      omega
  · have hres2 : (gomp_unmap_vars st tgtId dcf).2
        = (unmapLoop st dcf []
              ((st.tgt tgtId).list.take (st.tgt tgtId).list_count)).2
          ++ gomp_unmap_tgt
              (unmapLoop st dcf []
                ((st.tgt tgtId).list.take (st.tgt tgtId).list_count)).1 tgtId := by
      unfold gomp_unmap_vars
      simp only []
      rw [if_neg hlc, if_neg hgt]
    refine ⟨?_, ?_⟩
    · rw [hres2, List.filter_append, gomp_unmap_tgt_no_d2h, List.append_nil]
      exact h1
    · intro hle
      refine ⟨?_, ?_, ?_⟩
      · have hm : Event.freeArray tgtId ∈ gomp_unmap_tgt
            (unmapLoop st dcf []
              ((st.tgt tgtId).list.take (st.tgt tgtId).list_count)).1 tgtId := by
          unfold gomp_unmap_tgt
          simp only []
          exact List.mem_append.mpr (Or.inr (by simp))
        rw [hres2]
        exact List.mem_append.mpr (Or.inr hm)
      · have hm : Event.freeTgt tgtId ∈ gomp_unmap_tgt
            (unmapLoop st dcf []
              ((st.tgt tgtId).list.take (st.tgt tgtId).list_count)).1 tgtId := by
          unfold gomp_unmap_tgt
          simp only []
          exact List.mem_append.mpr (Or.inr (by simp))
        rw [hres2]
        exact List.mem_append.mpr (Or.inr hm)
      · intro hte
        have hte' : ((unmapLoop st dcf []
            ((st.tgt tgtId).list.take (st.tgt tgtId).list_count)).1.tgt tgtId).tgt_end
              ≠ 0 := by
          rw [(hloop.2 tgtId).2.2]
          exact hte
        have hm : Event.freeFuncEv ((st.tgt tgtId).to_free.getD 0) ∈ gomp_unmap_tgt
            (unmapLoop st dcf []
              ((st.tgt tgtId).list.take (st.tgt tgtId).list_count)).1 tgtId := by
          unfold gomp_unmap_tgt
          simp only []
          rw [if_pos hte', (hloop.2 tgtId).1]
          simp
        rw [hres2]
        exact List.mem_append.mpr (Or.inr hm)

/-- C7 witness: unmapping the one-slot descriptor of `c7wState` with
`do_copyfrom` set. -/
theorem c7_unmap_witness :
    (gomp_unmap_vars c7wState 0 true).2.filter Event.isD2h
        = ((c7wState.tgt 0).list.take (c7wState.tgt 0).list_count).flatMap
            (specSlotCopyEvents c7wState true)
    ∧ Event.freeArray 0 ∈ (gomp_unmap_vars c7wState 0 true).2
    ∧ Event.freeTgt 0 ∈ (gomp_unmap_vars c7wState 0 true).2
    ∧ Event.freeFuncEv ((c7wState.tgt 0).to_free.getD 0)
        ∈ (gomp_unmap_vars c7wState 0 true).2 :=
  have h := c7_unmap_copyback_policy c7wState 0 true (by decide) (by decide) (by decide)
  have h2 := h.2 (by decide)
  ⟨h.1, h2.1, h2.2.1, h2.2.2 (by decide)⟩

/-- A list whose pieces are all empty flattens to the empty list. -/
theorem flatMap_nil_of {α β : Type} (l : List α) (f : α → List β)
    (h : ∀ a ∈ l, f a = []) : l.flatMap f = [] := by
  induction l with
  | nil => rfl
  | cons a t ih =>
      rw [List.flatMap_cons, h a (List.mem_cons_self _ _), List.nil_append]
      exact ih (fun x hx => h x (List.mem_cons_of_mem _ hx))

/-- The unmap walk never touches a record none of the slots refers to. -/
theorem unmapLoop_key_keep (dcf : Bool) :
    ∀ (L : List VarDesc) (st' : EngState) (trace : List Event) (kId' : Nat),
      (∀ slot ∈ L, slot.key ≠ some kId') →
      (unmapLoop st' dcf trace L).1.key kId' = st'.key kId' := by
  intro L
  induction L with
  | nil => intro st' trace kId' h; rfl
  | cons slot rest ih =>
      intro st' trace kId' h
      show (unmapLoop (unmapSlotStep st' dcf slot).1 dcf
          (trace ++ (unmapSlotStep st' dcf slot).2) rest).1.key kId' = _
      rw [ih _ _ _ (fun s hs => h s (List.mem_cons_of_mem _ hs))]
      exact (unmapSlotStep_frame st' dcf slot).2.2.2.1 kId'
        (h slot (List.mem_cons_self _ _))

/-- The unmap walk never inserts into the index. -/
theorem unmapLoop_mem_keep (dcf : Bool) :
    ∀ (L : List VarDesc) (st' : EngState) (trace : List Event) (x : Nat),
      x ∉ st'.mem_map →
      x ∉ (unmapLoop st' dcf trace L).1.mem_map := by
  intro L
  induction L with
  | nil => intro st' trace x h; exact h
  | cons slot rest ih =>
      intro st' trace x h
      show x ∉ (unmapLoop (unmapSlotStep st' dcf slot).1 dcf
          (trace ++ (unmapSlotStep st' dcf slot).2) rest).1.mem_map
      exact ih _ _ _ ((unmapSlotStep_frame st' dcf slot).2.2.2.2.1 x h)

/-- One deferred-unmap step on a record of refcount 1 with no async
handback: the record's refcount drops to 0, its index entry is erased,
and its owner's descriptor refcount is decremented. -/
theorem unmapSlotStep_drain (st' : EngState) (slot : VarDesc) (kId tgtId : Nat)
    (hsk : slot.key = some kId) (hb : kId < st'.keys.length)
    (hrc1 : (st'.key kId).refcount = 1) (ha0 : ¬(st'.key kId).async_refcount > 0)
    (htg : (st'.key kId).tgt = tgtId) (htb : tgtId < st'.tgts.length)
    (how : (st'.tgt tgtId).refcount > 1) :
    ((unmapSlotStep st' false slot).1.tgt tgtId).refcount = (st'.tgt tgtId).refcount - 1
    ∧ (unmapSlotStep st' false slot).1.key kId = { st'.key kId with refcount := 0 }
    ∧ (st'.mem_map.Nodup → kId ∉ (unmapSlotStep st' false slot).1.mem_map) := by
  have hc1 : ¬((st'.key kId).refcount > 1 ∧ (st'.key kId).refcount ≠ REFCOUNT_INFINITY) := by
    intro h
    omega
  have harec := key_setKey_self st' kId { st'.key kId with refcount := 0 } hb
  have hst1 : (unmapSlotStep st' false slot).1
      = (let C := st'.setKey kId { st'.key kId with refcount := 0 };
         let stR : EngState := { C with mem_map := C.mem_map.erase kId };
         let j := (C.key kId).tgt;
         let ow := stR.tgt j;
         if ow.refcount > 1 then
           ({ stR with tgts := stR.tgts.set j { ow with refcount := ow.refcount - 1 } },
             [Event.removeEv kId])
         else (stR, Event.removeEv kId :: gomp_unmap_tgt stR j)).1 := by
    unfold unmapSlotStep
    rw [hsk]
    simp only []
    rw [if_neg hc1, if_pos hrc1, if_neg ha0]
    simp only []
    rw [if_pos trivial]
  simp only [] at hst1
  rw [harec] at hst1
  simp only [] at hst1
  rw [htg] at hst1
  have hstr : ({ st'.setKey kId { st'.key kId with tgt := tgtId, refcount := 0 } with
      mem_map :=
        (st'.setKey kId
          { st'.key kId with tgt := tgtId, refcount := 0 }).mem_map.erase kId }
        : EngState).tgt tgtId = st'.tgt tgtId := rfl
  rw [hstr] at hst1
  rw [if_pos how] at hst1
  refine ⟨?_, ?_, ?_⟩
  · rw [hst1]
    simp [EngState.tgt, EngState.setKey, List.getD, List.getElem?_set_eq_of_lt, htb]
  · rw [hst1]
    have htg' : (st'.keys[kId]).tgt = tgtId := by
      simpa [EngState.key, List.getD, List.getElem?_eq_getElem hb] using htg
    simp [EngState.key, EngState.setKey, List.getD, List.getElem?_set_eq_of_lt, hb, htg']
  · intro hmnod
    rw [hst1]
    show kId ∉ st'.mem_map.erase kId
    intro hx
    exact ((List.Nodup.mem_erase_iff hmnod).mp hx).1 rfl

/-- Deferred unmap over fully keyed slots whose records all have
refcount 1, no async handback and the same owner: every record drains to
refcount 0 and leaves the index, and the owner descriptor's refcount
drops by one per slot, ending at 1. -/
theorem unmapLoop_drain (st : EngState) (tgtId : Nat) :
    ∀ (L : List VarDesc) (st' : EngState) (trace : List Event),
      (∀ slot ∈ L, slot.key.isSome = true) →
      (∀ kId ∈ keysOf L, st'.key kId = st.key kId) →
      (∀ kId ∈ keysOf L, (st.key kId).refcount = 1 ∧ (st.key kId).async_refcount = 0
          ∧ (st.key kId).tgt = tgtId ∧ kId < st.keys.length) →
      st'.keys.length = st.keys.length →
      st'.tgts.length = st.tgts.length →
      tgtId < st.tgts.length →
      (keysOf L).Nodup →
      st'.mem_map.Nodup →
      (st'.tgt tgtId).refcount = 1 + L.length →
      ((unmapLoop st' false trace L).1.tgt tgtId).refcount = 1
      ∧ (∀ kId ∈ keysOf L, ((unmapLoop st' false trace L).1.key kId).refcount = 0
            ∧ kId ∉ (unmapLoop st' false trace L).1.mem_map) := by
  intro L
  induction L with
  | nil =>
      intro st' trace hall hkey hrc hlen hlent htb hnod hmnod htrc
      refine ⟨by simpa using htrc, ?_⟩
      intro kId hm
      exact absurd hm (List.not_mem_nil kId)
  | cons slot rest ih =>
      intro st' trace hall hkey hrc hlen hlent htb hnod hmnod htrc
      obtain ⟨kId, hsk⟩ := Option.isSome_iff_exists.mp (hall slot (List.mem_cons_self _ _))
      have hkeys : keysOf (slot :: rest) = kId :: keysOf rest := by
        simp [keysOf, List.filterMap_cons, hsk]
      rw [hkeys] at hkey hrc hnod
      obtain ⟨hnotin, hnodr⟩ := List.nodup_cons.mp hnod
      have hk0 : st'.key kId = st.key kId := hkey kId (List.mem_cons_self _ _)
      obtain ⟨hr1, ha0, htg, hbk⟩ := hrc kId (List.mem_cons_self _ _)
      have hbk' : kId < st'.keys.length := by rw [hlen]; exact hbk
      have htb' : tgtId < st'.tgts.length := by rw [hlent]; exact htb
      have how : (st'.tgt tgtId).refcount > 1 := by
        rw [htrc, List.length_cons]
        omega
      have hstep := unmapSlotStep_drain st' slot kId tgtId hsk hbk'
        (by rw [hk0]; exact hr1) (by rw [hk0]; omega) (by rw [hk0]; exact htg) htb' how
      have hfr := unmapSlotStep_frame st' false slot
      have hall1 : ∀ s ∈ rest, s.key.isSome = true :=
        fun s hs => hall s (List.mem_cons_of_mem _ hs)
      have hkey1 : ∀ k' ∈ keysOf rest,
          (unmapSlotStep st' false slot).1.key k' = st.key k' := by
        intro k' hm
        have hne' : slot.key ≠ some k' := by
          rw [hsk]
          exact fun hcon => hnotin ((Option.some.inj hcon) ▸ hm)
        exact (hfr.2.2.2.1 k' hne').trans (hkey k' (List.mem_cons_of_mem _ hm))
      have hrc1 : ∀ k' ∈ keysOf rest,
          (st.key k').refcount = 1 ∧ (st.key k').async_refcount = 0
            ∧ (st.key k').tgt = tgtId ∧ k' < st.keys.length :=
        fun k' hm => hrc k' (List.mem_cons_of_mem _ hm)
      have hlen1 := hfr.2.1.trans hlen
      have hlent1 := hfr.2.2.1.trans hlent
      have hmnod1 : (unmapSlotStep st' false slot).1.mem_map.Nodup :=
        hfr.2.2.2.2.2 hmnod
      have htrc1 : ((unmapSlotStep st' false slot).1.tgt tgtId).refcount
          = 1 + rest.length := by
        rw [hstep.1, htrc, List.length_cons]
        omega
      have hrec := ih (unmapSlotStep st' false slot).1
        (trace ++ (unmapSlotStep st' false slot).2)
        hall1 hkey1 hrc1 hlen1 hlent1 htb hnodr hmnod1 htrc1
      refine ⟨hrec.1, ?_⟩
      intro k' hm
      rw [hkeys] at hm
      rcases List.mem_cons.mp hm with rfl | hm'
      · have hneq : ∀ s ∈ rest, s.key ≠ some k' := by
          intro s hs hcon
          exact hnotin (List.mem_filterMap.mpr ⟨s, hs, hcon⟩)
        constructor
        · have hkeep := unmapLoop_key_keep false rest (unmapSlotStep st' false slot).1
            (trace ++ (unmapSlotStep st' false slot).2) k' hneq
          show ((unmapLoop (unmapSlotStep st' false slot).1 false
              (trace ++ (unmapSlotStep st' false slot).2) rest).1.key k').refcount = 0
          rw [hkeep, hstep.2.1]
        · show k' ∉ (unmapLoop (unmapSlotStep st' false slot).1 false
              (trace ++ (unmapSlotStep st' false slot).2) rest).1.mem_map
          exact unmapLoop_mem_keep false rest _ _ k' (hstep.2.2 hmnod)
      · exact hrec.2 k' hm'

/-- When no record referenced by the slots is multiply referenced, the
async copy-back walk leaves the state untouched and issues exactly one
device→host copy per `copy_from` slot. -/
theorem copyFromAsyncLoop_low (st : EngState) :
    ∀ (L : List VarDesc) (trace : List Event),
      (∀ kId ∈ keysOf L, ¬(st.key kId).refcount > 1) →
      copyFromAsyncLoop st trace L
        = (st, trace ++ L.flatMap (fun slot =>
            match slot.key with
            | none => []
            | some kId =>
                if slot.copy_from then
                  [Event.d2h (st.key kId).host_start
                    ((st.tgt (st.key kId).tgt).tgt_start + (st.key kId).tgt_offset)
                    ((st.key kId).host_end - (st.key kId).host_start)]
                else []))
      := by
  intro L
  induction L with
  | nil =>
      intro trace hk
      simp [copyFromAsyncLoop]
  | cons slot rest ih =>
      intro trace hk
      cases hsk : slot.key with
      | none =>
          have hkeys : keysOf (slot :: rest) = keysOf rest := by
            simp [keysOf, List.filterMap_cons, hsk]
          rw [copyFromAsyncLoop, hsk]
          rw [ih trace (fun kId hm => hk kId (by rw [hkeys]; exact hm))]
          simp [List.flatMap_cons, hsk]
      | some kId =>
          have hkeys : keysOf (slot :: rest) = kId :: keysOf rest := by
            simp [keysOf, List.filterMap_cons, hsk]
          have hk0 : ¬(st.key kId).refcount > 1 :=
            hk kId (by rw [hkeys]; exact List.mem_cons_self _ _)
          rw [copyFromAsyncLoop, hsk]
          simp only []
          rw [if_neg hk0]
          rw [ih _ (fun k' hm =>
            hk k' (by rw [hkeys]; exact List.mem_cons_of_mem _ hm))]
          simp [List.flatMap_cons, hsk, List.append_assoc]

/-- C2 (amended): on a descriptor whose records all have refcount 1,
`gomp_copy_from_async` leaves the state untouched (no handoff to
`async_refcount`, no key removal, no deallocation) and issues one
device→host copy per `copy_from` slot; the subsequent
`gomp_unmap_vars(tgt, false)` then drains every record to refcount 0,
removes it from the index, frees the record array and descriptor, and
issues no second copy. -/
theorem c2_async_then_unmap (st : EngState) (tgtId : Nat)
    (hall : ∀ slot ∈ (st.tgt tgtId).list.take (st.tgt tgtId).list_count,
        slot.key.isSome = true ∧ slot.always_copy_from = false)
    (hrc : ∀ kId ∈ keysOf ((st.tgt tgtId).list.take (st.tgt tgtId).list_count),
        (st.key kId).refcount = 1 ∧ (st.key kId).async_refcount = 0
          ∧ (st.key kId).tgt = tgtId ∧ kId < st.keys.length)
    (hnod : (keysOf ((st.tgt tgtId).list.take (st.tgt tgtId).list_count)).Nodup)
    (hmnod : st.mem_map.Nodup)
    (htb : tgtId < st.tgts.length)
    (htrc : (st.tgt tgtId).refcount
        = 1 + ((st.tgt tgtId).list.take (st.tgt tgtId).list_count).length)
    (hlc : (st.tgt tgtId).list_count ≠ 0) :
    gomp_copy_from_async st tgtId
        = (st, ((st.tgt tgtId).list.take (st.tgt tgtId).list_count).flatMap
            (fun slot =>
              match slot.key with
              | none => []
              | some kId =>
                  if slot.copy_from then
                    [Event.d2h (st.key kId).host_start
                      ((st.tgt (st.key kId).tgt).tgt_start + (st.key kId).tgt_offset)
                      ((st.key kId).host_end - (st.key kId).host_start)]
                  else []))
    ∧ (∀ kId ∈ keysOf ((st.tgt tgtId).list.take (st.tgt tgtId).list_count),
        ((gomp_unmap_vars st tgtId false).1.key kId).refcount = 0
          ∧ kId ∉ (gomp_unmap_vars st tgtId false).1.mem_map)
    ∧ (gomp_unmap_vars st tgtId false).2.filter Event.isD2h = []
    ∧ Event.freeArray tgtId ∈ (gomp_unmap_vars st tgtId false).2
    ∧ Event.freeTgt tgtId ∈ (gomp_unmap_vars st tgtId false).2 := by
  have hasync := copyFromAsyncLoop_low st
    ((st.tgt tgtId).list.take (st.tgt tgtId).list_count) []
    (fun kId hm => by have := (hrc kId hm).1; omega)
  have hdrain := unmapLoop_drain st tgtId
    ((st.tgt tgtId).list.take (st.tgt tgtId).list_count) st []
    (fun s hs => (hall s hs).1) (fun _ _ => rfl) hrc rfl rfl htb hnod hmnod htrc
  have hd2h := unmapLoop_d2h st false
    ((st.tgt tgtId).list.take (st.tgt tgtId).list_count) st []
    (fun _ _ => rfl) (TgtFrame.refl st) rfl (fun kId hm => (hrc kId hm).2.2.2) hnod
  have hnil : ∀ slot ∈ (st.tgt tgtId).list.take (st.tgt tgtId).list_count,
      specSlotCopyEvents st false slot = [] := by
    intro slot hs
    obtain ⟨hks, halw⟩ := hall slot hs
    obtain ⟨kId, hsk⟩ := Option.isSome_iff_exists.mp hks
    unfold specSlotCopyEvents
    rw [hsk]
    simp only []
    rw [if_neg (fun h => by
      rcases h with ⟨_, hf, _⟩ | h2
      · exact absurd hf (by simp)
      · rw [halw] at h2
        exact absurd h2 (by simp))]
  have hnilf : ((st.tgt tgtId).list.take (st.tgt tgtId).list_count).flatMap
      (specSlotCopyEvents st false) = [] := flatMap_nil_of _ _ hnil
  have hB := hdrain.1
  have hne : ¬((unmapLoop st false []
      ((st.tgt tgtId).list.take (st.tgt tgtId).list_count)).1.tgt tgtId).refcount > 1 := by
    omega
  have hres1 : (gomp_unmap_vars st tgtId false).1
      = (unmapLoop st false []
          ((st.tgt tgtId).list.take (st.tgt tgtId).list_count)).1 := by
    unfold gomp_unmap_vars
    simp only []
    rw [if_neg hlc, if_neg hne]
  have hres2 : (gomp_unmap_vars st tgtId false).2
      = (unmapLoop st false []
            ((st.tgt tgtId).list.take (st.tgt tgtId).list_count)).2
        ++ gomp_unmap_tgt
            (unmapLoop st false []
              ((st.tgt tgtId).list.take (st.tgt tgtId).list_count)).1 tgtId := by
    unfold gomp_unmap_vars
    simp only []
    rw [if_neg hlc, if_neg hne]
  refine ⟨hasync, ?_, ?_, ?_, ?_⟩
  · intro kId hm
    rw [hres1]
    exact hdrain.2 kId hm
  · rw [hres2, List.filter_append, gomp_unmap_tgt_no_d2h, List.append_nil]
    have h1 := hd2h.1
    rw [List.filter_nil, List.nil_append] at h1
    rw [h1, hnilf]
  · rw [hres2]
    refine List.mem_append.mpr (Or.inr ?_)
    unfold gomp_unmap_tgt
    simp only []
    exact List.mem_append.mpr (Or.inr (by simp))
  · rw [hres2]
    refine List.mem_append.mpr (Or.inr ?_)
    unfold gomp_unmap_tgt
    simp only []
    exact List.mem_append.mpr (Or.inr (by simp))

/-- C2 witness: the two-record descriptor of `c2wState` (one `copy_from`
slot, one not), first `gomp_copy_from_async`, then the deferred
`gomp_unmap_vars(tgt, false)`. -/
theorem c2_async_then_unmap_witness :
    gomp_copy_from_async c2wState 0 = (c2wState, [Event.d2h 100 1000 16])
    ∧ ((gomp_unmap_vars c2wState 0 false).1.key 0).refcount = 0
    ∧ ((gomp_unmap_vars c2wState 0 false).1.key 1).refcount = 0
    ∧ 0 ∉ (gomp_unmap_vars c2wState 0 false).1.mem_map
    ∧ 1 ∉ (gomp_unmap_vars c2wState 0 false).1.mem_map
    ∧ (gomp_unmap_vars c2wState 0 false).2.filter Event.isD2h = []
    ∧ Event.freeArray 0 ∈ (gomp_unmap_vars c2wState 0 false).2
    ∧ Event.freeTgt 0 ∈ (gomp_unmap_vars c2wState 0 false).2 :=
  have h := c2_async_then_unmap c2wState 0 (by decide) (by decide) (by decide)
    (by decide) (by decide) (by rfl) (by decide)
  ⟨h.1.trans (by rfl),
    (h.2.1 0 (by decide)).1, (h.2.1 1 (by decide)).1,
    (h.2.1 0 (by decide)).2, (h.2.1 1 (by decide)).2,
    h.2.2.1, h.2.2.2.1, h.2.2.2.2⟩

end Target
